import Mathlib

/-!
Formal model of the MolBioMed Horus plugin (files
`src/molbiomed/Include/Blocks/create_md_custom.py` and
`src/molbiomed/Include/Blocks/mm_pbsa.py`).

The replica-MD block's `run_script` (batch submission) and `download_data`
(collection/aggregation) are embedded as pure state-passing functions over an
explicit filesystem model, together with the MM-PBSA block's `run_script`.
External collaborators that are not part of this repository (the generator
shell scripts and the Horus remote/execution API) are modelled as oracles,
following the external-interface contract stated for them: a generator script
invocation has an exit code, captured output streams, and on success produces
`preprod/`, `prod/` and `script.sh` inside its working directory; the remote
API can submit a job returning an identifier, run a remote command, push a
directory returning the remote copy's path, and pull a remote directory to a
local path.

The filesystem is an association list from paths (lists of components,
relative to the process working directory) to nodes, kept in creation order.
Floating-point values (the temperature) are carried as their rendered string,
since the orchestrator only formats them into a command line.
-/

/-- Filesystem node: a directory, a regular file with its text content, or a
symbolic link to another path. -/
inductive FsNode where
  | dir
  | file (content : String)
  | link (target : List String)
  deriving DecidableEq

/-- Filesystem state: an association list from paths to nodes. -/
abbrev Fs := List (List String × FsNode)

/-- Look up the node stored at a path (first matching entry). -/
def Fs.lookupPath (fs : Fs) (p : List String) : Option FsNode :=
  match fs with
  | [] => none
  | e :: rest => if e.1 = p then some e.2 else Fs.lookupPath rest p

/-- Create or overwrite the entry at a path (replaces the first matching
entry in place, else appends). Models `shutil.copy2` / symlink / file-write
targets. -/
def Fs.setEntry (fs : Fs) (p : List String) (n : FsNode) : Fs :=
  match fs with
  | [] => [(p, n)]
  | e :: rest => if e.1 = p then (p, n) :: rest else e :: Fs.setEntry rest p n

/-- Add an entry only when the path is not already present.  Models
`os.makedirs(..., exist_ok=True)` on a single path and the creation of script
outputs that do not clobber existing entries. -/
def Fs.addIfAbsent (fs : Fs) (p : List String) (n : FsNode) : Fs :=
  if (fs.lookupPath p).isSome then fs else fs ++ [(p, n)]

/-- The chain of ancestors of a path, shortest first, ending with the path
itself. -/
def Fs.ancestors (p : List String) : List (List String) :=
  (List.range p.length).map (fun i => p.take (i + 1))

/-- Model of `os.makedirs(p, exist_ok=True)`: create every missing ancestor
directory of `p`, including `p` itself. -/
def Fs.mkdirs (fs : Fs) (p : List String) : Fs :=
  (Fs.ancestors p).foldl (fun f q => f.addIfAbsent q FsNode.dir) fs

/-- Decide whether `pre` is an initial segment of `p` (so the entry at `p`
lives inside the tree rooted at `pre`). -/
def pathUnder (pre p : List String) : Bool :=
  match pre, p with
  | [], _ => true
  | _ :: _, [] => false
  | a :: as, b :: bs => a == b && pathUnder as bs

/-- Model of `shutil.rmtree p`: drop every entry inside the tree rooted at
`p`, including `p` itself. -/
def Fs.rmtree (fs : Fs) (p : List String) : Fs :=
  fs.filter (fun e => !(pathUnder p e.1))

/-- Drop every entry whose path starts with the component `root`. -/
def Fs.purge (fs : Fs) (root : String) : Fs :=
  fs.filter (fun e => e.1.head? != some root)

/-- The name under which an entry is an immediate child of the top-level
directory `root`, if it is one. -/
def childNameOf (root : String) (e : List String × FsNode) : Option String :=
  match e.1 with
  | [a, b] => if a = root then some b else none
  | _ => none

/-- Names of the immediate children of the top-level directory `root`, in
entry (creation) order. -/
def Fs.childrenOf (fs : Fs) (root : String) : List String :=
  fs.filterMap (childNameOf root)

/-- Sanity of an initial filesystem: if the top-level directory `root` itself
is absent then no entry lies below it.  Any state reachable through a real
filesystem satisfies this (a file cannot exist inside a missing directory). -/
def Fs.rootClean (fs : Fs) (root : String) : Bool :=
  (fs.lookupPath [root]).isSome || fs.all (fun e => e.1.head? != some root)

/-- Render a path the way `str(Path(...))` renders a relative path. -/
def pathStr (p : List String) : String :=
  String.intercalate "/" p

/-- Decimal digit character, as produced by Python's `%d` formatting. -/
def digitChar (n : Nat) : Char :=
  match n with
  | 0 => '0' | 1 => '1' | 2 => '2' | 3 => '3' | 4 => '4'
  | 5 => '5' | 6 => '6' | 7 => '7' | 8 => '8' | _ => '9'

/-- Numeric value of a decimal digit character. -/
def charVal (c : Char) : Nat :=
  match c with
  | '0' => 0 | '1' => 1 | '2' => 2 | '3' => 3 | '4' => 4
  | '5' => 5 | '6' => 6 | '7' => 7 | '8' => 8 | '9' => 9
  | _ => 10

/-- Decimal digits of a natural number, most significant first (the digit
sequence printed by Python's `%d`). -/
def natDigits (n : Nat) : List Char :=
  if n < 10 then [digitChar n]
  else natDigits (n / 10) ++ [digitChar (n % 10)]
  termination_by n
  decreasing_by
    exact Nat.div_lt_self (by omega) (by omega)

/-- Value of a digit string read left to right. -/
def digitsVal (ds : List Char) : Nat :=
  ds.foldl (fun a c => 10 * a + charVal c) 0

/-- Digits of `k` zero-padded on the left to width 2: Python's `f"{k:02d}"`
for a non-negative `k`. -/
def pad2 (k : Nat) : List Char :=
  if k < 10 then '0' :: natDigits k else natDigits k

/-- Replica directory name `f"replica_{k:02d}"` for the 1-based index `k`. -/
def replicaTag (k : Nat) : String :=
  "replica_" ++ String.mk (pad2 k)

/-- The 1-based index list `[s, s+1, ..., s+n-1]`, the embedding of Python's
`range(s, s+n)`. -/
def idxFrom (s : Nat) : Nat → List Nat
  | 0 => []
  | n + 1 => s :: idxFrom (s + 1) n

/-- Observable side effects of the two blocks, in program order.  Each
replica-scoped effect is tagged with the 1-based replica index of the loop
iteration that performed it. -/
inductive Event where
  | warn (msg : String)
  | invokeScript (replica : Nat) (cwd : List String) (args : List String)
  | loadFile (replica : Nat) (name : String)
  | submitJobLocal (replica : Nat) (script : List String)
  | remoteCommand (replica : Nat) (cmd : String)
  | sendData (replica : Nat) (localDir : List String) (remoteRoot : String)
  | submitJobRemote (replica : Nat) (script : String)
  | getData (replica : Nat) (remotePath : String) (localPath : List String)
  | invokeSetup (args : List String)
  | invokeRun (args : List String)
  deriving DecidableEq

/-- The replica index an event is tagged with, when it is replica-scoped. -/
def Event.replicaIdx : Event → Option Nat
  | .warn _ => none
  | .invokeScript k _ _ => some k
  | .loadFile k _ => some k
  | .submitJobLocal k _ => some k
  | .remoteCommand k _ => some k
  | .sendData k _ _ => some k
  | .submitJobRemote k _ => some k
  | .getData k _ _ => some k
  | .invokeSetup _ => none
  | .invokeRun _ => none

/-- A job-submission effect for replica `j` appears in the trace (either a
local submission or a remote one). -/
def submittedTo (evs : List Event) (j : Nat) : Prop :=
  (∃ p, Event.submitJobLocal j p ∈ evs) ∨ (∃ s, Event.submitJobRemote j s ∈ evs)

/-- The argument vector of the first generator-script invocation in a trace,
if any. -/
def firstInvokeArgs (evs : List Event) : Option (List String) :=
  evs.findSome? (fun e =>
    match e with
    | .invokeScript _ _ args => some args
    | _ => none)

/-- Error taxonomy of the two blocks.  Constructors carry exactly the data
interpolated into the corresponding Python exception message. -/
inductive BlockError where
  | missingRequiredInput
  | unsupportedBackend (machine : String) (allowed : List String)
  | externalScriptFailure (replica : Nat) (stderr : String)
  | workspaceNotFound
  | mmpbsaSetupFailure (stderr : String)
  | mmpbsaRunFailure (stderr : String)
  deriving DecidableEq

namespace CreateMD

/-- Python truthiness of an optional integer variable: `None` and `0` are
falsy. -/
def pyTruthy : Option Int → Bool
  | none => false
  | some v => v != 0

/-- Embedding of lines 103-105 of `create_md_custom.py`:
`block.variables.get(last_residue) or
(block.variables.get(last_residue_interactive) or {}).get("residue")`,
followed by the falsiness check of lines 107-111.  Returns the resolved
value, or `none` when the subsequent check raises. -/
def resolveLastResidue (explicit interactive : Option Int) : Option Int :=
  let v := if pyTruthy explicit then explicit else interactive
  if pyTruthy v then v else none

/-- The fixed supported backend set, in source order. -/
def allowedMachines : List String := ["csuc", "local", "picard", "slurm"]

/-- The batch workspace root directory name (`md_custom_workdir`, created
under the process working directory). -/
def rootDirName : String := "md_custom_workdir"

/-- Inputs of one batch submission, as read from the block's inputs and
variables at the top of `run_script`.  Input files are given by their
basename and content; the orchestrator copies them by content. -/
structure Request where
  prmtopName : String
  prmtopContent : String
  inpcrdName : String
  inpcrdContent : String
  temperature : String
  lengthNs : Int
  replicas : Nat
  lastResidue : Option Int
  lastResidueInteractive : Option Int
  machine : String
  flowName : String
  remoteWorkDir : String
  pluginDir : String
  deriving DecidableEq

/-- Oracle for the external collaborators of `run_script`: per replica index,
the generator script's exit code, captured streams and produced artifacts,
and the remote API's results. -/
structure Env where
  isLocal : Bool
  exitCode : Nat → Int
  stdoutOf : Nat → String
  stderrOf : Nat → String
  makesPreprod : Nat → Bool
  makesProd : Nat → Bool
  makesScript : Nat → Bool
  scriptBody : Nat → String
  jobIdOf : Nat → String
  sendDataResult : Nat → String

/-- Workspace subdirectory of replica `k`: `md_custom_workdir/replica_XX`. -/
def workdirOf (k : Nat) : List String := [rootDirName, replicaTag k]

/-- Command line of the generator-script invocation for the resolved
last-residue value `r` (lines 158-173). -/
def cmdArgs (req : Request) (r : Int) : List String :=
  ["bash",
   req.pluginDir ++ "/Include/protocols/MD/cMD/create_md_custom.sh",
   "-p", req.prmtopName,
   "-c", req.inpcrdName,
   "-r", toString r,
   "-t", req.temperature,
   "-l", toString req.lengthNs,
   "-m", req.machine]

/-- Remote root directory scoped to the batch:
`os.path.join(block.remote.workDir, flow_name)` with spaces of the flow name
replaced by underscores (lines 214-215). -/
def remoteRootOf (req : Request) : String :=
  req.remoteWorkDir ++ "/" ++ (req.flowName.replace " " "_")

/-- Warning printed before destroying a pre-existing batch workspace
(lines 126-130). -/
def removalWarnMsg : String :=
  "WARNING: existing parent workdir found; removing it now. All prior contents will be permanently deleted."

/-- Filesystem effect of lines 145-150 for replica `k`: create the replica
workspace and copy both input files into it under their original names. -/
def copyPhaseFs (req : Request) (k : Nat) (fs : Fs) : Fs :=
  (((fs.mkdirs (workdirOf k)).setEntry
      (workdirOf k ++ [req.prmtopName]) (FsNode.file req.prmtopContent)).setEntry
      (workdirOf k ++ [req.inpcrdName]) (FsNode.file req.inpcrdContent))

/-- Filesystem effect of a successful generator-script run for replica `k`,
per the external contract: it may produce `preprod/`, `prod/` and
`script.sh` inside its working directory. -/
def scriptOutputsFs (env : Env) (k : Nat) (fs : Fs) : Fs :=
  let f1 := if env.makesPreprod k then fs.addIfAbsent (workdirOf k ++ ["preprod"]) FsNode.dir else fs
  let f2 := if env.makesProd k then f1.addIfAbsent (workdirOf k ++ ["prod"]) FsNode.dir else f1
  if env.makesScript k then f2.addIfAbsent (workdirOf k ++ ["script.sh"]) (FsNode.file (env.scriptBody k)) else f2

/-- Combined filesystem effect of a successful pass over the replica indices
`ks`: for each, the copy phase followed by the script outputs. -/
def batchFs (req : Request) (env : Env) (ks : List Nat) (fs : Fs) : Fs :=
  ks.foldl (fun f k => scriptOutputsFs env k (copyPhaseFs req k f)) fs

/-- Submission-loop state threaded through the replicas: the filesystem, the
collected job identifiers, and the `remote_job_folders` handle list. -/
structure SubState where
  fs : Fs
  jobIds : List String
  remoteJobFolders : List String
  deriving DecidableEq

/-- The per-replica loop of `run_script` (lines 144-227) over a list of
replica indices: create the workspace, copy inputs, invoke the generator
script, fail the whole batch on a non-zero exit, otherwise submit the job
locally or remotely.  Returns the final state, the emitted events, and the
error that aborted the loop, if any. -/
def submitLoop (req : Request) (env : Env) (r : Int) :
    List Nat → SubState → SubState × List Event × Option BlockError
  | [], st => (st, [], none)
  | k :: ks, st =>
    let fsC := copyPhaseFs req k st.fs
    if env.exitCode k = 0 then
      let fsS := scriptOutputsFs env k fsC
      let evHead := Event.invokeScript k (workdirOf k) (cmdArgs req r) ::
        (if (fsS.lookupPath (workdirOf k ++ ["script.sh"])).isSome then
          [Event.loadFile k (replicaTag k ++ "_script.sh")] else [])
      if env.isLocal then
        let rest := submitLoop req env r ks
          ⟨fsS, st.jobIds ++ [env.jobIdOf k], st.remoteJobFolders⟩
        (rest.1,
         evHead ++ [Event.submitJobLocal k (workdirOf k ++ ["script.sh"])] ++ rest.2.1,
         rest.2.2)
      else
        let rw := env.sendDataResult k
        let rest := submitLoop req env r ks
          ⟨fsS, st.jobIds ++ [env.jobIdOf k], st.remoteJobFolders ++ [rw]⟩
        (rest.1,
         evHead ++
           [Event.remoteCommand k ("mkdir -p " ++ remoteRootOf req),
            Event.sendData k (workdirOf k) (remoteRootOf req),
            Event.submitJobRemote k (rw ++ "/script.sh")] ++ rest.2.1,
         rest.2.2)
    else
      (⟨fsC, st.jobIds, st.remoteJobFolders⟩,
       [Event.invokeScript k (workdirOf k) (cmdArgs req r)],
       some (BlockError.externalScriptFailure k (env.stderrOf k)))

/-- Result of a batch submission: final filesystem, event trace, the job
identifiers in submission order, the persisted `extraData` handle list (only
set on success with a non-empty list, line 229-230), and the raised error,
if any. -/
structure RunResult where
  fs : Fs
  events : List Event
  jobIds : List String
  extraData : Option (List String)
  outcome : Option BlockError
  deriving DecidableEq

/-- Embedding of `run_script` of `create_md_custom.py` (lines 94-230):
resolve the last residue (fail with `missingRequiredInput` when falsy),
check the backend against the supported set (fail with
`unsupportedBackend`), destroy any pre-existing batch workspace, recreate
it, then run the per-replica submission loop and persist the handle list. -/
def runScript (req : Request) (env : Env) (fs : Fs) : RunResult :=
  match resolveLastResidue req.lastResidue req.lastResidueInteractive with
  | none => ⟨fs, [], [], none, some BlockError.missingRequiredInput⟩
  | some r =>
    if req.machine ∈ allowedMachines then
      let pre :=
        if (fs.lookupPath [rootDirName]).isSome then
          (fs.rmtree [rootDirName], [Event.warn removalWarnMsg])
        else (fs, ([] : List Event))
      let fs2 := pre.1.mkdirs [rootDirName]
      let res := submitLoop req env r (idxFrom 1 req.replicas) ⟨fs2, [], []⟩
      let extra :=
        if res.2.2.isNone && !res.1.remoteJobFolders.isEmpty then
          some res.1.remoteJobFolders
        else none
      ⟨res.1.fs, pre.2 ++ res.2.1, res.1.jobIds, extra, res.2.2⟩
    else ⟨fs, [], [], none, some (BlockError.unsupportedBackend req.machine allowedMachines)⟩

/-- Oracle for the external collaborators of `download_data`: whether the
backend is local, whether pulling a given remote path succeeds (a failed
pull leaves the local target untouched), and whether creating a symbolic
link at a given local path succeeds (`os.symlink` raising `OSError`
otherwise). -/
structure DlEnv where
  isLocal : Bool
  getDataOk : String → Bool
  symlinkOk : List String → Bool

/-- Warning printed when the recorded handle count does not match the
requested replica count (lines 248-251). -/
def dlWarnMsg : String :=
  "Warning: remote job folders count does not match replicas; attempting partial download."

/-- Filesystem effect of processing one recorded handle `h` at 1-based
position `idx` (lines 253-260): ensure the local replica directory, then
pull `preprod` and `prod`; a successful pull places a directory at the local
target, a failed pull leaves it untouched. -/
def dlStepFs (env : DlEnv) (h : String) (idx : Nat) (fs : Fs) : Fs :=
  let fs1 := fs.mkdirs [rootDirName, replicaTag idx]
  let fs2 := if env.getDataOk (h ++ "/preprod") then
      fs1.setEntry [rootDirName, replicaTag idx, "preprod"] FsNode.dir
    else fs1
  if env.getDataOk (h ++ "/prod") then
    fs2.setEntry [rootDirName, replicaTag idx, "prod"] FsNode.dir
  else fs2

/-- The per-handle download loop of `download_data` (lines 252-260):
for each recorded remote folder, ensure the local replica directory and pull
its `preprod` and `prod` subtrees.  `idx` is the 1-based position of the
first handle in the list. -/
def dlLoop (env : DlEnv) : List String → Nat → Fs → Fs × List Event
  | [], _, fs => (fs, [])
  | h :: hs, idx, fs =>
    ((dlLoop env hs (idx + 1) (dlStepFs env h idx fs)).1,
     Event.getData idx (h ++ "/preprod") [rootDirName, replicaTag idx, "preprod"] ::
       Event.getData idx (h ++ "/prod") [rootDirName, replicaTag idx, "prod"] ::
       (dlLoop env hs (idx + 1) (dlStepFs env h idx fs)).2)

/-- Path of the aggregation link for replica `k` and stage `sub` inside the
aggregated directory `aggdir`. -/
def aggLinkPath (k : Nat) (sub aggdir : String) : List String :=
  [rootDirName, aggdir, replicaTag k ++ "_" ++ sub]

/-- One aggregation step (lines 274-282): if the replica's local stage
subtree exists and no entry with the link's name exists yet, create a
symbolic link to it, falling back to a plain file holding the source path
when linking fails. -/
def aggStep (env : DlEnv) (k : Nat) (sub aggdir : String) (fs : Fs) : Fs :=
  let src := [rootDirName, replicaTag k, sub]
  if (fs.lookupPath src).isSome then
    let lk := aggLinkPath k sub aggdir
    if (fs.lookupPath lk).isSome then fs
    else if env.symlinkOk lk then fs.setEntry lk (FsNode.link src)
    else fs.setEntry lk (FsNode.file (pathStr src))
  else fs

/-- The aggregation loop of `download_data` (lines 267-282) over a list of
replica indices, handling `preprod` then `prod` for each. -/
def aggLoop (env : DlEnv) : List Nat → Fs → Fs
  | [], fs => fs
  | k :: ks, fs =>
    aggLoop env ks (aggStep env k "prod" "prod_replicas" (aggStep env k "preprod" "preprod_replicas" fs))

/-- Result of the collection phase: final filesystem, event trace, the two
output directory paths set by `setOutput` (absent when an error was raised),
and the raised error, if any. -/
structure DlResult where
  fs : Fs
  events : List Event
  outputs : Option (String × String)
  outcome : Option BlockError
  deriving DecidableEq

/-- Embedding of `download_data` of `create_md_custom.py` (lines 233-285):
fail with `workspaceNotFound` when the batch workspace root is missing; for
a non-local backend, read the recorded handle list from `extraData`
(defaulting to the empty list), warn on a count mismatch and download each
recorded handle; then create the two aggregated directories, link every
existing stage subtree under a per-replica name (never overwriting an
existing entry), and expose the two aggregated paths as outputs. -/
def downloadData (replicas : Nat) (extraData : Option (List String)) (env : DlEnv) (fs : Fs) : DlResult :=
  if (fs.lookupPath [rootDirName]).isSome then
    let dl :=
      if env.isLocal then (fs, ([] : List Event))
      else
        let handles := extraData.getD []
        let wEvs := if handles.length ≠ replicas then [Event.warn dlWarnMsg] else []
        let rest := dlLoop env handles 1 fs
        (rest.1, wEvs ++ rest.2)
    let fsA := (dl.1.mkdirs [rootDirName, "preprod_replicas"]).mkdirs [rootDirName, "prod_replicas"]
    let fsB := aggLoop env (idxFrom 1 replicas) fsA
    ⟨fsB, dl.2,
     some (pathStr [rootDirName, "preprod_replicas"], pathStr [rootDirName, "prod_replicas"]),
     none⟩
  else ⟨fs, [], none, some BlockError.workspaceNotFound⟩

/-- Invariant after a download pass: for every handle at 1-based position
`i` counted from `idx`, the local replica directory exists and each stage
whose pull succeeds holds a directory. -/
def DlDone (env : DlEnv) : List String → Nat → Fs → Prop
  | [], _, _ => True
  | h :: hs, idx, fs =>
    (fs.lookupPath [rootDirName, replicaTag idx]).isSome = true
    ∧ (env.getDataOk (h ++ "/preprod") = true →
        fs.lookupPath [rootDirName, replicaTag idx, "preprod"] = some FsNode.dir)
    ∧ (env.getDataOk (h ++ "/prod") = true →
        fs.lookupPath [rootDirName, replicaTag idx, "prod"] = some FsNode.dir)
    ∧ DlDone env hs (idx + 1) fs

/-- Invariant after an aggregation pass over `ks`: every existing stage
subtree already has an entry at its aggregation-link name. -/
def AggDone (ks : List Nat) (fs : Fs) : Prop :=
  ∀ k ∈ ks,
    ((fs.lookupPath [rootDirName, replicaTag k, "preprod"]).isSome = true →
      (fs.lookupPath (aggLinkPath k "preprod" "preprod_replicas")).isSome = true)
    ∧ ((fs.lookupPath [rootDirName, replicaTag k, "prod"]).isSome = true →
      (fs.lookupPath (aggLinkPath k "prod" "prod_replicas")).isSome = true)

end CreateMD

namespace MMPBSA

/-- Inputs of the MM-PBSA setup block, as read from the block's inputs and
variables at the top of its `run_script` (lines 110-124 of `mm_pbsa.py`).
The working directory is the plugin directory, carried as a path. -/
structure Request where
  prmtopPath : String
  trajPath : String
  jobName : String
  frames : Int
  solventMask : String
  ligandMask : String
  outputPrefix : String
  pbRadius : String
  cluster : String
  runNow : Bool
  pluginDir : List String
  deriving DecidableEq

/-- Oracle for the MM-PBSA external collaborators: the setup script's exit
code, captured error stream and produced files, and the generated script's
exit code and error stream when it is executed. -/
structure Env where
  setupExit : Int
  setupStderr : String
  madeInput : Bool
  madeScript : Bool
  runExit : Int
  runStderr : String

/-- Result of the MM-PBSA block: final filesystem, event trace, the two
outputs set by `setOutput` (absent when an error was raised), and the
raised error, if any. -/
structure Result where
  fs : Fs
  events : List Event
  outputs : Option (String × String)
  outcome : Option BlockError
  deriving DecidableEq

/-- Command line of the MM-PBSA setup-script invocation (lines 136-157). -/
def cmdArgs (req : Request) : List String :=
  ["bash",
   pathStr req.pluginDir ++ "/Include/protocols/MM-PBSA/mmpbsa_setup.sh",
   "-j", req.jobName,
   "-t", req.trajPath,
   "-f", toString req.frames,
   "-p", req.prmtopPath,
   "-s", req.solventMask,
   "-n", req.ligandMask,
   "-o", req.outputPrefix,
   "-r", req.pbRadius,
   "-q", req.cluster]

/-- Embedding of `run_script` of `mm_pbsa.py` (lines 110-191): run the setup
script (fail on non-zero exit), then, only when immediate execution was
requested and the generated `script_mmpbsa.sh` exists, run it as a second
subprocess (fail on non-zero exit); finally set both outputs to the
`mmpbsa.in` and `script_mmpbsa.sh` paths, whether or not those files
exist. -/
def runScript (req : Request) (env : Env) (fs : Fs) : Result :=
  let inputFile := req.pluginDir ++ ["mmpbsa.in"]
  let scriptFile := req.pluginDir ++ ["script_mmpbsa.sh"]
  if env.setupExit = 0 then
    let fs1 := if env.madeInput then fs.addIfAbsent inputFile (FsNode.file "") else fs
    let fs2 := if env.madeScript then fs1.addIfAbsent scriptFile (FsNode.file "") else fs1
    if req.runNow && (fs2.lookupPath scriptFile).isSome then
      if env.runExit = 0 then
        ⟨fs2, [Event.invokeSetup (cmdArgs req), Event.invokeRun ["bash", pathStr scriptFile]],
         some (pathStr inputFile, pathStr scriptFile), none⟩
      else
        ⟨fs2, [Event.invokeSetup (cmdArgs req), Event.invokeRun ["bash", pathStr scriptFile]],
         none, some (BlockError.mmpbsaRunFailure env.runStderr)⟩
    else
      ⟨fs2, [Event.invokeSetup (cmdArgs req)],
       some (pathStr inputFile, pathStr scriptFile), none⟩
  else ⟨fs, [Event.invokeSetup (cmdArgs req)], none, some (BlockError.mmpbsaSetupFailure env.setupStderr)⟩

end MMPBSA

/-! ## Concrete sample inputs used to exercise the model -/

/-- A well-formed sample batch request: local backend, two replicas, explicit
last residue 150. -/
def sampleReq : CreateMD.Request :=
  ⟨"complex.prmtop", "TOPOLOGY", "complex.inpcrd", "COORDS", "300.0", 200, 2,
   some 150, none, "local", "my flow", "/remote/work", "/plugins/molbiomed"⟩

/-- The sample request with three replicas. -/
def sampleReq3 : CreateMD.Request :=
  ⟨"complex.prmtop", "TOPOLOGY", "complex.inpcrd", "COORDS", "300.0", 200, 3,
   some 150, none, "local", "my flow", "/remote/work", "/plugins/molbiomed"⟩

/-- The sample request targeting the remote backend `picard`. -/
def sampleReqPicard : CreateMD.Request :=
  ⟨"complex.prmtop", "TOPOLOGY", "complex.inpcrd", "COORDS", "300.0", 200, 2,
   some 150, none, "picard", "my flow", "/remote/work", "/plugins/molbiomed"⟩

/-- The sample request with no last-residue value from either source. -/
def sampleReqMissing : CreateMD.Request :=
  ⟨"complex.prmtop", "TOPOLOGY", "complex.inpcrd", "COORDS", "300.0", 200, 2,
   none, none, "local", "my flow", "/remote/work", "/plugins/molbiomed"⟩

/-- The sample request with an unsupported backend and a resolvable last
residue. -/
def sampleReqOrion : CreateMD.Request :=
  ⟨"complex.prmtop", "TOPOLOGY", "complex.inpcrd", "COORDS", "300.0", 200, 2,
   some 150, none, "orion", "my flow", "/remote/work", "/plugins/molbiomed"⟩

/-- The sample request with an unsupported backend and no last-residue value
from either source. -/
def sampleReqOrionMissing : CreateMD.Request :=
  ⟨"complex.prmtop", "TOPOLOGY", "complex.inpcrd", "COORDS", "300.0", 200, 2,
   none, none, "orion", "my flow", "/remote/work", "/plugins/molbiomed"⟩

/-- The sample request supplying both an explicit last residue (7) and an
interactive selection (3). -/
def sampleReqBoth : CreateMD.Request :=
  ⟨"complex.prmtop", "TOPOLOGY", "complex.inpcrd", "COORDS", "300.0", 200, 2,
   some 7, some 3, "local", "my flow", "/remote/work", "/plugins/molbiomed"⟩

/-- A sample oracle on a local backend where every generator run succeeds and
produces all three artifacts. -/
def sampleEnvLocal : CreateMD.Env :=
  ⟨true, fun _ => 0, fun _ => "", fun _ => "", fun _ => true, fun _ => true,
   fun _ => true, fun _ => "#!/bin/bash", fun k => "job-" ++ replicaTag k,
   fun k => "/remote/work/my_flow/" ++ replicaTag k⟩

/-- The sample oracle on a remote backend. -/
def sampleEnvRemote : CreateMD.Env :=
  ⟨false, fun _ => 0, fun _ => "", fun _ => "", fun _ => true, fun _ => true,
   fun _ => true, fun _ => "#!/bin/bash", fun k => "job-" ++ replicaTag k,
   fun k => "/remote/work/my_flow/" ++ replicaTag k⟩

/-- A sample oracle where the generator script of replica 2 exits with
status 1 and error text on its error stream, while other replicas succeed. -/
def sampleEnvFail2 : CreateMD.Env :=
  ⟨true, fun k => if k = 2 then 1 else 0, fun _ => "",
   fun k => if k = 2 then "segfault in tleap" else "",
   fun _ => true, fun _ => true, fun _ => true, fun _ => "#!/bin/bash",
   fun k => "job-" ++ replicaTag k, fun k => "/remote/work/my_flow/" ++ replicaTag k⟩

/-- A collection-phase oracle for a remote backend where every pull and every
link succeeds. -/
def sampleDlEnv : CreateMD.DlEnv := ⟨false, fun _ => true, fun _ => true⟩

/-- A collection-phase oracle for a remote backend where every pull and every
link fails. -/
def sampleDlEnvBad : CreateMD.DlEnv := ⟨false, fun _ => false, fun _ => false⟩

/-- A sample MM-PBSA request asking for immediate execution. -/
def sampleMReq : MMPBSA.Request :=
  ⟨"complex.prmtop", "traj.nc", "MMPBSA_job", 5000, ":WAT:Na+:Cl-", ":LIG",
   "mmpbsa_output", "mbondi2", "local", true, ["plugins", "molbiomed"]⟩

/-- A sample MM-PBSA oracle whose setup succeeds, produces `mmpbsa.in` but
not `script_mmpbsa.sh`. -/
def sampleMEnv : MMPBSA.Env := ⟨0, "", true, false, 0, ""⟩

/-! ## Basic filesystem lemmas -/

theorem lookupPath_setEntry_self (fs : Fs) (p : List String) (n : FsNode) :
    (fs.setEntry p n).lookupPath p = some n := by
  induction fs with
  | nil => simp [Fs.setEntry, Fs.lookupPath]
  | cons e rest ih =>
    by_cases h : e.1 = p
    · simp [Fs.setEntry, h, Fs.lookupPath]
    · simp [Fs.setEntry, h, Fs.lookupPath, ih]

theorem lookupPath_setEntry_ne (fs : Fs) (p q : List String) (n : FsNode) (h : q ≠ p) :
    (fs.setEntry p n).lookupPath q = fs.lookupPath q := by
  induction fs with
  | nil =>
    simp only [Fs.setEntry, Fs.lookupPath]
    rw [if_neg (fun hh => h hh.symm)]
  | cons e rest ih =>
    by_cases he : e.1 = p
    · simp only [Fs.setEntry, if_pos he, Fs.lookupPath]
      rw [if_neg (fun hh : p = q => h hh.symm), if_neg (fun hh : e.1 = q => h (he ▸ hh).symm)]
    · simp only [Fs.setEntry, if_neg he, Fs.lookupPath]
      by_cases hq : e.1 = q
      · rw [if_pos hq, if_pos hq]
      · rw [if_neg hq, if_neg hq]; exact ih

theorem setEntry_self (fs : Fs) (p : List String) (n : FsNode)
    (h : fs.lookupPath p = some n) : fs.setEntry p n = fs := by
  induction fs with
  | nil => simp [Fs.lookupPath] at h
  | cons e rest ih =>
    obtain ⟨e1, e2⟩ := e
    by_cases he : e1 = p
    · subst he
      simp [Fs.lookupPath] at h
      simp [Fs.setEntry, h]
    · simp [Fs.lookupPath, he] at h
      simp [Fs.setEntry, he, ih h]

theorem lookupPath_setEntry_isSome (fs : Fs) (p q : List String) (n : FsNode)
    (h : (fs.lookupPath q).isSome = true) :
    ((fs.setEntry p n).lookupPath q).isSome = true := by
  by_cases hq : q = p
  · subst hq; simp [lookupPath_setEntry_self]
  · rw [lookupPath_setEntry_ne fs p q n hq]; exact h

theorem lookupPath_append_left {v : FsNode} (fs fs' : Fs) (q : List String)
    (h : fs.lookupPath q = some v) : (fs ++ fs').lookupPath q = some v := by
  induction fs with
  | nil => simp [Fs.lookupPath] at h
  | cons e rest ih =>
    by_cases he : e.1 = q
    · simp only [Fs.lookupPath, if_pos he] at h
      simp only [List.cons_append, Fs.lookupPath, if_pos he]
      exact h
    · simp only [Fs.lookupPath, if_neg he] at h
      simp only [List.cons_append, Fs.lookupPath, if_neg he]
      exact ih h

theorem lookupPath_append_none (fs fs' : Fs) (q : List String)
    (h : fs.lookupPath q = none) : (fs ++ fs').lookupPath q = fs'.lookupPath q := by
  induction fs with
  | nil => simp [Fs.lookupPath]
  | cons e rest ih =>
    by_cases he : e.1 = q
    · simp only [Fs.lookupPath, if_pos he] at h
      cases h
    · simp only [Fs.lookupPath, if_neg he] at h
      simp only [List.cons_append, Fs.lookupPath, if_neg he]
      exact ih h

theorem lookupPath_addIfAbsent_preserve {v : FsNode} (fs : Fs) (p q : List String) (n : FsNode)
    (h : fs.lookupPath q = some v) : (fs.addIfAbsent p n).lookupPath q = some v := by
  unfold Fs.addIfAbsent
  by_cases hp : (fs.lookupPath p).isSome
  · simp [hp, h]
  · simp only [hp, if_neg, Bool.false_eq_true, if_false]
    exact lookupPath_append_left fs _ q h

theorem lookupPath_addIfAbsent_isSome (fs : Fs) (p q : List String) (n : FsNode)
    (h : (fs.lookupPath q).isSome = true) :
    ((fs.addIfAbsent p n).lookupPath q).isSome = true := by
  obtain ⟨v, hv⟩ := Option.isSome_iff_exists.mp h
  rw [lookupPath_addIfAbsent_preserve fs p q n hv]
  rfl

theorem lookupPath_addIfAbsent_ne (fs : Fs) (p q : List String) (n : FsNode) (h : q ≠ p) :
    (fs.addIfAbsent p n).lookupPath q = fs.lookupPath q := by
  unfold Fs.addIfAbsent
  by_cases hp : (fs.lookupPath p).isSome
  · simp [hp]
  · simp only [hp, Bool.false_eq_true, if_false]
    cases hq : fs.lookupPath q with
    | some v => exact lookupPath_append_left fs _ q hq
    | none =>
      rw [lookupPath_append_none fs _ q hq]
      simp only [Fs.lookupPath]
      rw [if_neg (fun hh : (p, n).1 = q => h hh.symm)]

theorem addIfAbsent_of_isSome (fs : Fs) (p : List String) (n : FsNode)
    (h : (fs.lookupPath p).isSome = true) : fs.addIfAbsent p n = fs := by
  simp [Fs.addIfAbsent, h]

theorem lookupPath_addIfAbsent_self_isSome (fs : Fs) (p : List String) (n : FsNode) :
    ((fs.addIfAbsent p n).lookupPath p).isSome = true := by
  unfold Fs.addIfAbsent
  by_cases hp : (fs.lookupPath p).isSome
  · simp [hp]
  · simp only [hp, Bool.false_eq_true, if_false]
    have hn : fs.lookupPath p = none := by
      cases h : fs.lookupPath p with
      | some v => rw [h] at hp; simp at hp
      | none => rfl
    rw [lookupPath_append_none fs _ p hn]
    simp [Fs.lookupPath]

/-! ## Lemmas about `mkdirs`, `rmtree`, `purge` and `childrenOf` -/

theorem ancestors_one (a : String) : Fs.ancestors [a] = [[a]] := rfl

theorem ancestors_two (a b : String) : Fs.ancestors [a, b] = [[a], [a, b]] := rfl

theorem mkdirs_one (fs : Fs) (a : String) :
    fs.mkdirs [a] = fs.addIfAbsent [a] FsNode.dir := rfl

theorem mkdirs_two (fs : Fs) (a b : String) :
    fs.mkdirs [a, b] = (fs.addIfAbsent [a] FsNode.dir).addIfAbsent [a, b] FsNode.dir := rfl

theorem lookupPath_mkdirs_preserve {v : FsNode} (fs : Fs) (p q : List String)
    (h : fs.lookupPath q = some v) : (fs.mkdirs p).lookupPath q = some v := by
  unfold Fs.mkdirs
  generalize Fs.ancestors p = l
  induction l generalizing fs with
  | nil => exact h
  | cons x xs ih =>
    exact ih _ (lookupPath_addIfAbsent_preserve fs x q FsNode.dir h)

theorem lookupPath_mkdirs_isSome (fs : Fs) (p q : List String)
    (h : (fs.lookupPath q).isSome = true) : ((fs.mkdirs p).lookupPath q).isSome = true := by
  obtain ⟨v, hv⟩ := Option.isSome_iff_exists.mp h
  rw [lookupPath_mkdirs_preserve fs p q hv]
  rfl

theorem foldl_addIfAbsent_noop (l : List (List String)) (fs : Fs)
    (h : ∀ q ∈ l, (fs.lookupPath q).isSome = true) :
    l.foldl (fun f q => f.addIfAbsent q FsNode.dir) fs = fs := by
  induction l with
  | nil => rfl
  | cons x xs ih =>
    simp only [List.foldl_cons]
    rw [addIfAbsent_of_isSome fs x FsNode.dir (h x (by simp))]
    exact ih (fun q hq => h q (by simp [hq]))

theorem mkdirs_noop (fs : Fs) (p : List String)
    (h : ∀ q ∈ Fs.ancestors p, (fs.lookupPath q).isSome = true) : fs.mkdirs p = fs :=
  foldl_addIfAbsent_noop (Fs.ancestors p) fs h

theorem lookupPath_mkdirs_self_isSome (fs : Fs) (a b : String) :
    ((fs.mkdirs [a, b]).lookupPath [a, b]).isSome = true := by
  rw [mkdirs_two]
  exact lookupPath_addIfAbsent_self_isSome _ _ _

theorem lookupPath_mkdirs_one_self_isSome (fs : Fs) (a : String) :
    ((fs.mkdirs [a]).lookupPath [a]).isSome = true := by
  rw [mkdirs_one]
  exact lookupPath_addIfAbsent_self_isSome _ _ _

theorem lookupPath_mkdirs_two_ne (fs : Fs) (a b : String) (q : List String)
    (h1 : q ≠ [a]) (h2 : q ≠ [a, b]) :
    (fs.mkdirs [a, b]).lookupPath q = fs.lookupPath q := by
  rw [mkdirs_two, lookupPath_addIfAbsent_ne _ _ _ _ h2, lookupPath_addIfAbsent_ne _ _ _ _ h1]

theorem lookupPath_mkdirs_one_ne (fs : Fs) (a : String) (q : List String)
    (h1 : q ≠ [a]) : (fs.mkdirs [a]).lookupPath q = fs.lookupPath q := by
  rw [mkdirs_one, lookupPath_addIfAbsent_ne _ _ _ _ h1]

theorem lookupPath_filter_out (fs : Fs) (pred : List String × FsNode → Bool) (q : List String)
    (h : ∀ e : List String × FsNode, e.1 = q → pred e = false) :
    Fs.lookupPath (List.filter pred fs) q = none := by
  induction fs with
  | nil => rfl
  | cons e rest ih =>
    by_cases hp : pred e = true
    · have hne : e.1 ≠ q := fun hq => by rw [h e hq] at hp; cases hp
      rw [List.filter_cons, if_pos hp]
      have hstep : Fs.lookupPath (e :: List.filter pred rest) q
          = Fs.lookupPath (List.filter pred rest) q := by
        simp only [Fs.lookupPath, if_neg hne]
      rw [hstep]
      exact ih
    · rw [List.filter_cons, if_neg hp]
      exact ih

theorem lookupPath_filter_keep (fs : Fs) (pred : List String × FsNode → Bool) (q : List String)
    (h : ∀ e : List String × FsNode, e.1 = q → pred e = true) :
    Fs.lookupPath (List.filter pred fs) q = fs.lookupPath q := by
  induction fs with
  | nil => rfl
  | cons e rest ih =>
    by_cases hp : pred e = true
    · rw [List.filter_cons, if_pos hp]
      by_cases hq : e.1 = q
      · simp only [Fs.lookupPath, if_pos hq]
      · simp only [Fs.lookupPath, if_neg hq]
        exact ih
    · have hne : e.1 ≠ q := fun hq => hp (h e hq)
      rw [List.filter_cons, if_neg hp]
      have hstep : Fs.lookupPath (e :: rest) q = Fs.lookupPath rest q := by
        simp only [Fs.lookupPath, if_neg hne]
      rw [hstep]
      exact ih

theorem pathUnder_root (root : String) (q : List String) :
    pathUnder [root] q = (q.head? == some root) := by
  cases q with
  | nil => rfl
  | cons b bs =>
    by_cases hb : root = b
    · subst hb
      simp [pathUnder]
    · have h1 : (root == b) = false := beq_eq_false_iff_ne.mpr hb
      have h2 : (some b == some root) = false :=
        beq_eq_false_iff_ne.mpr (fun hh => hb (Option.some.inj hh).symm)
      simp [pathUnder, h1, h2]

theorem lookupPath_rmtree_under (fs : Fs) (p q : List String)
    (h : pathUnder p q = true) : (fs.rmtree p).lookupPath q = none := by
  unfold Fs.rmtree
  exact lookupPath_filter_out fs (fun e => !(pathUnder p e.1)) q
    (fun e he => by simp only []; rw [he, h]; rfl)

theorem lookupPath_rmtree_other (fs : Fs) (p q : List String)
    (h : pathUnder p q = false) : (fs.rmtree p).lookupPath q = fs.lookupPath q := by
  unfold Fs.rmtree
  exact lookupPath_filter_keep fs (fun e => !(pathUnder p e.1)) q
    (fun e he => by simp only []; rw [he, h]; rfl)

theorem rmtree_root_eq_purge (fs : Fs) (root : String) :
    fs.rmtree [root] = fs.purge root := by
  unfold Fs.rmtree Fs.purge
  apply List.filter_congr
  intro e _
  rw [pathUnder_root]
  cases h : e.1.head? == some root with
  | false => simp [bne, h]
  | true => simp [bne, h]

theorem purge_of_no_root (fs : Fs) (root : String)
    (h : ∀ e ∈ fs, e.1.head? ≠ some root) : fs.purge root = fs := by
  unfold Fs.purge
  apply List.filter_eq_self.mpr
  intro e he
  simpa [bne] using h e he

theorem lookupPath_of_no_root (fs : Fs) (root : String) (q : List String)
    (h : ∀ e ∈ fs, e.1.head? ≠ some root) (hq : q.head? = some root) :
    fs.lookupPath q = none := by
  induction fs with
  | nil => rfl
  | cons e rest ih =>
    have hne : e.1 ≠ q := fun hh => h e (by simp) (hh ▸ hq)
    simp only [Fs.lookupPath, if_neg hne]
    exact ih (fun e' he' => h e' (by simp [he']))

theorem rootClean_cases (fs : Fs) (root : String) (h : fs.rootClean root = true) :
    (fs.lookupPath [root]).isSome = true ∨ ∀ e ∈ fs, e.1.head? ≠ some root := by
  unfold Fs.rootClean at h
  rcases Bool.or_eq_true_iff.mp h with h1 | h2
  · exact Or.inl h1
  · refine Or.inr (fun e he => ?_)
    have := List.all_eq_true.mp h2 e he
    simpa [bne] using this

theorem childNameOf_eq_none (root : String) (p : List String) (n : FsNode)
    (h : ∀ b, p ≠ [root, b]) : childNameOf root (p, n) = none := by
  rcases p with _ | ⟨a, _ | ⟨b, _ | ⟨c, tl⟩⟩⟩
  · rfl
  · rfl
  · have ha : a ≠ root := fun hh => h b (by rw [hh])
    simp [childNameOf, ha]
  · rfl

theorem childNameOf_head_ne (root : String) (p : List String) (n : FsNode)
    (h : p.head? ≠ some root) : childNameOf root (p, n) = none := by
  rcases p with _ | ⟨a, _ | ⟨b, _ | ⟨c, tl⟩⟩⟩
  · rfl
  · rfl
  · have ha : a ≠ root := fun hh => h (by simp [hh])
    simp [childNameOf, ha]
  · rfl

theorem childNameOf_child (root b : String) (n : FsNode) :
    childNameOf root ([root, b], n) = some b := by
  simp [childNameOf]

theorem childrenOf_nil_of_no_root (fs : Fs) (root : String)
    (h : ∀ e ∈ fs, e.1.head? ≠ some root) : fs.childrenOf root = [] := by
  induction fs with
  | nil => rfl
  | cons e rest ih =>
    unfold Fs.childrenOf
    simp only [List.filterMap_cons]
    rw [childNameOf_head_ne root e.1 e.2 (h e (by simp))]
    exact ih (fun e' he' => h e' (by simp [he']))

theorem childrenOf_append (fs fs' : Fs) (root : String) :
    (fs ++ fs').childrenOf root = fs.childrenOf root ++ fs'.childrenOf root := by
  unfold Fs.childrenOf
  rw [List.filterMap_append]

theorem childrenOf_setEntry_other (fs : Fs) (p : List String) (n : FsNode) (root : String)
    (h : ∀ b, p ≠ [root, b]) :
    (fs.setEntry p n).childrenOf root = fs.childrenOf root := by
  induction fs with
  | nil =>
    show Fs.childrenOf [(p, n)] root = Fs.childrenOf [] root
    unfold Fs.childrenOf
    simp only [List.filterMap_cons, List.filterMap_nil]
    rw [childNameOf_eq_none root p n h]
  | cons e rest ih =>
    by_cases he : e.1 = p
    · unfold Fs.setEntry
      simp only [if_pos he]
      unfold Fs.childrenOf
      simp only [List.filterMap_cons]
      have h1 : childNameOf root (p, n) = none := childNameOf_eq_none root p n h
      have h2 : childNameOf root e = none := by
        obtain ⟨e1, e2⟩ := e
        simp only at he
        rw [he]
        exact childNameOf_eq_none root p e2 h
      rw [h1, h2]
    · unfold Fs.setEntry
      simp only [if_neg he]
      unfold Fs.childrenOf at ih ⊢
      simp only [List.filterMap_cons]
      rw [ih]

theorem childrenOf_addIfAbsent_other (fs : Fs) (p : List String) (n : FsNode) (root : String)
    (h : ∀ b, p ≠ [root, b]) :
    (fs.addIfAbsent p n).childrenOf root = fs.childrenOf root := by
  unfold Fs.addIfAbsent
  by_cases hp : (fs.lookupPath p).isSome
  · simp [hp]
  · simp only [hp, Bool.false_eq_true, if_false]
    rw [childrenOf_append]
    have : Fs.childrenOf [(p, n)] root = [] := by
      unfold Fs.childrenOf
      simp only [List.filterMap_cons, List.filterMap_nil]
      rw [childNameOf_eq_none root p n h]
    rw [this, List.append_nil]

theorem childrenOf_addIfAbsent_new (fs : Fs) (b root : String) (n : FsNode)
    (h : fs.lookupPath [root, b] = none) :
    (fs.addIfAbsent [root, b] n).childrenOf root = fs.childrenOf root ++ [b] := by
  unfold Fs.addIfAbsent
  rw [h]
  simp only [Option.isSome_none, Bool.false_eq_true, if_false]
  rw [childrenOf_append]
  unfold Fs.childrenOf
  simp only [List.filterMap_cons, List.filterMap_nil]
  rw [childNameOf_child]

/-! ## Replica-tag lemmas -/

theorem charVal_digitChar (n : Nat) (h : n < 10) : charVal (digitChar n) = n := by
  interval_cases n <;> rfl

theorem natDigits_low (n : Nat) (h : n < 10) : natDigits n = [digitChar n] := by
  rw [natDigits, if_pos h]

theorem natDigits_high (n : Nat) (h : ¬ n < 10) :
    natDigits n = natDigits (n / 10) ++ [digitChar (n % 10)] := by
  rw [natDigits, if_neg h]

theorem digitsVal_natDigits (n : Nat) : digitsVal (natDigits n) = n := by
  induction n using Nat.strong_induction_on with
  | _ n ih =>
    by_cases h : n < 10
    · rw [natDigits_low n h]
      simp [digitsVal, charVal_digitChar n h]
    · rw [natDigits_high n h]
      unfold digitsVal
      rw [List.foldl_append]
      have hdiv : n / 10 < n := Nat.div_lt_self (by omega) (by omega)
      have hv : List.foldl (fun a c => 10 * a + charVal c) 0 (natDigits (n / 10)) = n / 10 :=
        ih (n / 10) hdiv
      rw [hv]
      simp only [List.foldl_cons, List.foldl_nil]
      rw [charVal_digitChar (n % 10) (Nat.mod_lt n (by omega))]
      omega

theorem digitsVal_cons_zero (ds : List Char) : digitsVal ('0' :: ds) = digitsVal ds := rfl

theorem digitsVal_pad2 (k : Nat) : digitsVal (pad2 k) = k := by
  unfold pad2
  by_cases h : k < 10
  · rw [if_pos h, digitsVal_cons_zero, digitsVal_natDigits]
  · rw [if_neg h, digitsVal_natDigits]

theorem pad2_inj (j k : Nat) (h : pad2 j = pad2 k) : j = k := by
  have := congrArg digitsVal h
  rwa [digitsVal_pad2, digitsVal_pad2] at this

theorem replicaTag_data (k : Nat) :
    (replicaTag k).data = ['r', 'e', 'p', 'l', 'i', 'c', 'a', '_'] ++ pad2 k := by
  unfold replicaTag
  rw [String.data_append]

theorem replicaTag_inj (j k : Nat) (h : replicaTag j = replicaTag k) : j = k := by
  have hd := congrArg String.data h
  rw [replicaTag_data, replicaTag_data] at hd
  exact pad2_inj j k (List.append_cancel_left hd)

theorem replicaTag_ne_preag (k : Nat) : replicaTag k ≠ "preprod_replicas" := by
  intro h
  have hd := congrArg String.data h
  rw [replicaTag_data] at hd
  simp at hd

theorem replicaTag_ne_prodag (k : Nat) : replicaTag k ≠ "prod_replicas" := by
  intro h
  have hd := congrArg String.data h
  rw [replicaTag_data] at hd
  simp at hd

/-! ## Index-list lemmas -/

theorem idxFrom_append (s m n : Nat) :
    idxFrom s (m + n) = idxFrom s m ++ idxFrom (s + m) n := by
  induction m generalizing s with
  | zero => simp [idxFrom]
  | succ m ih =>
    have : s + (m + 1) + n = s + 1 + (m + n) := by omega
    show idxFrom s (m + 1 + n) = _
    have hmn : m + 1 + n = (m + n) + 1 := by omega
    rw [hmn]
    show s :: idxFrom (s + 1) (m + n) = (s :: idxFrom (s + 1) m) ++ idxFrom (s + (m + 1)) n
    rw [ih (s + 1)]
    simp [Nat.add_assoc, Nat.add_comm 1 m]

theorem mem_idxFrom (j s n : Nat) : j ∈ idxFrom s n ↔ s ≤ j ∧ j < s + n := by
  induction n generalizing s with
  | zero => simp [idxFrom]
  | succ n ih =>
    simp only [idxFrom, List.mem_cons, ih (s + 1)]
    omega

theorem length_idxFrom (s n : Nat) : (idxFrom s n).length = n := by
  induction n generalizing s with
  | zero => rfl
  | succ n ih => simp [idxFrom, ih]

theorem idxFrom_nodup (s n : Nat) : (idxFrom s n).Nodup := by
  induction n generalizing s with
  | zero => simp [idxFrom]
  | succ n ih =>
    refine List.nodup_cons.mpr ⟨?_, ih (s + 1)⟩
    rw [mem_idxFrom]
    omega

theorem idxFrom_one_succ (n : Nat) : idxFrom 1 (n + 1) = 1 :: idxFrom 2 n := rfl

/-! ## Per-replica step lemmas for the submission loop -/

namespace CreateMD

theorem workdirOf_ne (j k : Nat) (h : j ≠ k) : workdirOf j ≠ workdirOf k := by
  intro hh
  apply h
  apply replicaTag_inj
  simpa [workdirOf] using hh

theorem workdirOf_ne_root (k : Nat) : workdirOf k ≠ [rootDirName] := by
  simp [workdirOf]

theorem workdirOf_ext_ne_root (k : Nat) (x : String) : workdirOf k ++ [x] ≠ [rootDirName] := by
  simp [workdirOf]

theorem workdirOf_ext_ne_workdir (j k : Nat) (x : String) : workdirOf j ++ [x] ≠ workdirOf k := by
  simp [workdirOf]

theorem workdirOf_ext_ne_ext (j k : Nat) (x y : String) (h : j ≠ k) :
    workdirOf j ++ [x] ≠ workdirOf k ++ [y] := by
  intro hh
  apply h
  apply replicaTag_inj
  have hg := congrArg (fun l => l.get? 1) hh
  simpa [workdirOf] using hg

theorem copyPhase_lookup_inpcrd (req : Request) (k : Nat) (fs : Fs) :
    (copyPhaseFs req k fs).lookupPath (workdirOf k ++ [req.inpcrdName])
      = some (FsNode.file req.inpcrdContent) := by
  unfold copyPhaseFs
  exact lookupPath_setEntry_self _ _ _

theorem copyPhase_lookup_prmtop (req : Request) (k : Nat) (fs : Fs)
    (hne : req.prmtopName ≠ req.inpcrdName) :
    (copyPhaseFs req k fs).lookupPath (workdirOf k ++ [req.prmtopName])
      = some (FsNode.file req.prmtopContent) := by
  unfold copyPhaseFs
  rw [lookupPath_setEntry_ne _ _ _ _ (by
    intro hh
    exact hne (List.append_cancel_left hh |> fun hx => (List.cons.injEq _ _ _ _ ▸ hx).1))]
  exact lookupPath_setEntry_self _ _ _

theorem copyPhase_lookup_workdir_isSome (req : Request) (k : Nat) (fs : Fs) :
    ((copyPhaseFs req k fs).lookupPath (workdirOf k)).isSome = true := by
  unfold copyPhaseFs
  apply lookupPath_setEntry_isSome
  apply lookupPath_setEntry_isSome
  show ((fs.mkdirs [rootDirName, replicaTag k]).lookupPath [rootDirName, replicaTag k]).isSome = true
  exact lookupPath_mkdirs_self_isSome fs _ _

theorem copyPhase_preserve {v : FsNode} (req : Request) (k : Nat) (fs : Fs) (q : List String)
    (hq1 : q ≠ workdirOf k ++ [req.prmtopName]) (hq2 : q ≠ workdirOf k ++ [req.inpcrdName])
    (h : fs.lookupPath q = some v) : (copyPhaseFs req k fs).lookupPath q = some v := by
  unfold copyPhaseFs
  rw [lookupPath_setEntry_ne _ _ _ _ hq2, lookupPath_setEntry_ne _ _ _ _ hq1]
  exact lookupPath_mkdirs_preserve fs _ q h

theorem copyPhase_isSome_mono (req : Request) (k : Nat) (fs : Fs) (q : List String)
    (h : (fs.lookupPath q).isSome = true) :
    ((copyPhaseFs req k fs).lookupPath q).isSome = true := by
  unfold copyPhaseFs
  apply lookupPath_setEntry_isSome
  apply lookupPath_setEntry_isSome
  exact lookupPath_mkdirs_isSome fs _ q h

theorem copyPhase_none (req : Request) (k : Nat) (fs : Fs) (q : List String)
    (hq0 : q ≠ [rootDirName]) (hq1 : q ≠ workdirOf k) (hq2 : ∀ x, q ≠ workdirOf k ++ [x])
    (h : fs.lookupPath q = none) : (copyPhaseFs req k fs).lookupPath q = none := by
  unfold copyPhaseFs
  rw [lookupPath_setEntry_ne _ _ _ _ (hq2 req.inpcrdName),
      lookupPath_setEntry_ne _ _ _ _ (hq2 req.prmtopName)]
  show (fs.mkdirs [rootDirName, replicaTag k]).lookupPath q = none
  rw [lookupPath_mkdirs_two_ne fs _ _ q hq0 hq1]
  exact h

theorem scriptOutputs_preserve {v : FsNode} (env : Env) (k : Nat) (fs : Fs) (q : List String)
    (h : fs.lookupPath q = some v) : (scriptOutputsFs env k fs).lookupPath q = some v := by
  simp only [scriptOutputsFs]
  by_cases h1 : env.makesPreprod k <;> by_cases h2 : env.makesProd k <;>
    by_cases h3 : env.makesScript k <;>
    simp [h1, h2, h3] <;>
    repeat (first
      | exact h
      | apply lookupPath_addIfAbsent_preserve)

theorem scriptOutputs_isSome_mono (env : Env) (k : Nat) (fs : Fs) (q : List String)
    (h : (fs.lookupPath q).isSome = true) :
    ((scriptOutputsFs env k fs).lookupPath q).isSome = true := by
  obtain ⟨v, hv⟩ := Option.isSome_iff_exists.mp h
  rw [scriptOutputs_preserve env k fs q hv]
  rfl

theorem scriptOutputs_none (env : Env) (k : Nat) (fs : Fs) (q : List String)
    (hq : ∀ x, q ≠ workdirOf k ++ [x])
    (h : fs.lookupPath q = none) : (scriptOutputsFs env k fs).lookupPath q = none := by
  simp only [scriptOutputsFs]
  by_cases h1 : env.makesPreprod k <;> by_cases h2 : env.makesProd k <;>
    by_cases h3 : env.makesScript k <;>
    simp [h1, h2, h3] <;>
    repeat (first
      | exact h
      | rw [lookupPath_addIfAbsent_ne _ _ _ _ (hq _)])

end CreateMD

namespace CreateMD

theorem batchFs_nil (req : Request) (env : Env) (fs : Fs) : batchFs req env [] fs = fs := rfl

theorem batchFs_cons (req : Request) (env : Env) (k : Nat) (ks : List Nat) (fs : Fs) :
    batchFs req env (k :: ks) fs
      = batchFs req env ks (scriptOutputsFs env k (copyPhaseFs req k fs)) := rfl

theorem batchFs_preserve {v : FsNode} (req : Request) (env : Env) (ks : List Nat) (fs : Fs)
    (q : List String) (hq : ∀ j ∈ ks, ∀ x, q ≠ workdirOf j ++ [x])
    (h : fs.lookupPath q = some v) : (batchFs req env ks fs).lookupPath q = some v := by
  induction ks generalizing fs with
  | nil => exact h
  | cons k ks ih =>
    rw [batchFs_cons]
    refine ih _ (fun j hj x => hq j (by simp [hj]) x) ?_
    apply scriptOutputs_preserve
    exact copyPhase_preserve req k fs q (hq k (by simp) _) (hq k (by simp) _) h

theorem batchFs_isSome_mono (req : Request) (env : Env) (ks : List Nat) (fs : Fs)
    (q : List String) (h : (fs.lookupPath q).isSome = true) :
    ((batchFs req env ks fs).lookupPath q).isSome = true := by
  induction ks generalizing fs with
  | nil => exact h
  | cons k ks ih =>
    rw [batchFs_cons]
    exact ih _ (scriptOutputs_isSome_mono env k _ q (copyPhase_isSome_mono req k fs q h))

theorem batchFs_none (req : Request) (env : Env) (ks : List Nat) (fs : Fs) (q : List String)
    (hq : ∀ j ∈ ks, q ≠ workdirOf j ∧ ∀ x, q ≠ workdirOf j ++ [x])
    (hroot : q ≠ [rootDirName]) (h : fs.lookupPath q = none) :
    (batchFs req env ks fs).lookupPath q = none := by
  induction ks generalizing fs with
  | nil => exact h
  | cons k ks ih =>
    rw [batchFs_cons]
    refine ih _ (fun j hj => hq j (by simp [hj])) ?_
    apply scriptOutputs_none env k _ q (hq k (by simp)).2
    exact copyPhase_none req k fs q hroot (hq k (by simp)).1 (hq k (by simp)).2 h

theorem batchFs_lookup_workdir_isSome (req : Request) (env : Env) (ks : List Nat) (fs : Fs)
    (k : Nat) (hk : k ∈ ks) :
    ((batchFs req env ks fs).lookupPath (workdirOf k)).isSome = true := by
  induction ks generalizing fs with
  | nil => cases hk
  | cons k' ks ih =>
    rw [batchFs_cons]
    rcases List.mem_cons.mp hk with hkk | hk'
    · subst hkk
      apply batchFs_isSome_mono
      apply scriptOutputs_isSome_mono
      exact copyPhase_lookup_workdir_isSome req k fs
    · exact ih _ hk'

theorem batchFs_lookup_prmtop (req : Request) (env : Env) (ks : List Nat) (fs : Fs)
    (k : Nat) (hk : k ∈ ks) (hnd : ks.Nodup) (hne : req.prmtopName ≠ req.inpcrdName) :
    (batchFs req env ks fs).lookupPath (workdirOf k ++ [req.prmtopName])
      = some (FsNode.file req.prmtopContent) := by
  induction ks generalizing fs with
  | nil => cases hk
  | cons k' ks ih =>
    rw [batchFs_cons]
    rcases List.mem_cons.mp hk with hkk | hk'
    · subst hkk
      have hnotin : k ∉ ks := (List.nodup_cons.mp hnd).1
      refine batchFs_preserve req env ks _ _ (fun j hj x => ?_) ?_
      · exact workdirOf_ext_ne_ext k j _ x (fun hkj => hnotin (hkj ▸ hj))
      · apply scriptOutputs_preserve
        exact copyPhase_lookup_prmtop req k fs hne
    · exact ih _ hk' (List.nodup_cons.mp hnd).2

theorem batchFs_lookup_inpcrd (req : Request) (env : Env) (ks : List Nat) (fs : Fs)
    (k : Nat) (hk : k ∈ ks) (hnd : ks.Nodup) :
    (batchFs req env ks fs).lookupPath (workdirOf k ++ [req.inpcrdName])
      = some (FsNode.file req.inpcrdContent) := by
  induction ks generalizing fs with
  | nil => cases hk
  | cons k' ks ih =>
    rw [batchFs_cons]
    rcases List.mem_cons.mp hk with hkk | hk'
    · subst hkk
      have hnotin : k ∉ ks := (List.nodup_cons.mp hnd).1
      refine batchFs_preserve req env ks _ _ (fun j hj x => ?_) ?_
      · exact workdirOf_ext_ne_ext k j _ x (fun hkj => hnotin (hkj ▸ hj))
      · apply scriptOutputs_preserve
        exact copyPhase_lookup_inpcrd req k fs
    · exact ih _ hk' (List.nodup_cons.mp hnd).2

theorem childrenOf_copyPhase (req : Request) (k : Nat) (fs : Fs)
    (hroot : (fs.lookupPath [rootDirName]).isSome = true)
    (habs : fs.lookupPath (workdirOf k) = none) :
    (copyPhaseFs req k fs).childrenOf rootDirName
      = fs.childrenOf rootDirName ++ [replicaTag k] := by
  unfold copyPhaseFs
  rw [childrenOf_setEntry_other _ _ _ _ (by
        intro b
        simp [workdirOf]),
      childrenOf_setEntry_other _ _ _ _ (by
        intro b
        simp [workdirOf])]
  show (Fs.mkdirs fs [rootDirName, replicaTag k]).childrenOf rootDirName = _
  rw [mkdirs_two]
  rw [addIfAbsent_of_isSome fs [rootDirName] FsNode.dir hroot]
  exact childrenOf_addIfAbsent_new fs (replicaTag k) rootDirName FsNode.dir habs

theorem childrenOf_scriptOutputs (env : Env) (k : Nat) (fs : Fs) :
    (scriptOutputsFs env k fs).childrenOf rootDirName = fs.childrenOf rootDirName := by
  simp only [scriptOutputsFs]
  by_cases h1 : env.makesPreprod k <;> by_cases h2 : env.makesProd k <;>
    by_cases h3 : env.makesScript k <;>
    simp [h1, h2, h3] <;>
    repeat (first
      | rfl
      | rw [childrenOf_addIfAbsent_other _ _ _ _ (by intro b; simp [workdirOf])])

theorem childrenOf_batchFs (req : Request) (env : Env) (ks : List Nat) (fs : Fs)
    (hroot : (fs.lookupPath [rootDirName]).isSome = true)
    (habs : ∀ j ∈ ks, fs.lookupPath (workdirOf j) = none) (hnd : ks.Nodup) :
    (batchFs req env ks fs).childrenOf rootDirName
      = fs.childrenOf rootDirName ++ ks.map replicaTag := by
  induction ks generalizing fs with
  | nil => simp [batchFs_nil]
  | cons k ks ih =>
    rw [batchFs_cons]
    have hroot' : ((scriptOutputsFs env k (copyPhaseFs req k fs)).lookupPath [rootDirName]).isSome = true :=
      scriptOutputs_isSome_mono env k _ _ (copyPhase_isSome_mono req k fs _ hroot)
    have habs' : ∀ j ∈ ks, (scriptOutputsFs env k (copyPhaseFs req k fs)).lookupPath (workdirOf j) = none := by
      intro j hj
      have hjk : j ≠ k := fun hh => (List.nodup_cons.mp hnd).1 (hh ▸ hj)
      apply scriptOutputs_none env k _ _ (fun x => (workdirOf_ext_ne_workdir k j x).symm)
      apply copyPhase_none req k fs _ (workdirOf_ne_root j) (workdirOf_ne j k hjk)
        (fun x => (workdirOf_ext_ne_workdir k j x).symm)
      exact habs j (by simp [hj])
    rw [ih _ hroot' habs' (List.nodup_cons.mp hnd).2]
    rw [childrenOf_scriptOutputs, childrenOf_copyPhase req k fs hroot (habs k (by simp))]
    simp

end CreateMD

namespace CreateMD

theorem submitLoop_nil (req : Request) (env : Env) (r : Int) (st : SubState) :
    submitLoop req env r [] st = (st, [], none) := rfl

theorem submitLoop_cons_fail (req : Request) (env : Env) (r : Int) (k : Nat) (ks : List Nat)
    (st : SubState) (hf : ¬ env.exitCode k = 0) :
    submitLoop req env r (k :: ks) st
      = (⟨copyPhaseFs req k st.fs, st.jobIds, st.remoteJobFolders⟩,
         [Event.invokeScript k (workdirOf k) (cmdArgs req r)],
         some (BlockError.externalScriptFailure k (env.stderrOf k))) := by
  simp only [submitLoop]
  rw [if_neg hf]

theorem submitLoop_cons_ok_local (req : Request) (env : Env) (r : Int) (k : Nat) (ks : List Nat)
    (st : SubState) (h0 : env.exitCode k = 0) (hl : env.isLocal = true) :
    submitLoop req env r (k :: ks) st
      = ((submitLoop req env r ks
            ⟨scriptOutputsFs env k (copyPhaseFs req k st.fs),
             st.jobIds ++ [env.jobIdOf k], st.remoteJobFolders⟩).1,
         (Event.invokeScript k (workdirOf k) (cmdArgs req r) ::
            (if ((scriptOutputsFs env k (copyPhaseFs req k st.fs)).lookupPath
                  (workdirOf k ++ ["script.sh"])).isSome then
              [Event.loadFile k (replicaTag k ++ "_script.sh")] else []))
           ++ [Event.submitJobLocal k (workdirOf k ++ ["script.sh"])]
           ++ (submitLoop req env r ks
                ⟨scriptOutputsFs env k (copyPhaseFs req k st.fs),
                 st.jobIds ++ [env.jobIdOf k], st.remoteJobFolders⟩).2.1,
         (submitLoop req env r ks
            ⟨scriptOutputsFs env k (copyPhaseFs req k st.fs),
             st.jobIds ++ [env.jobIdOf k], st.remoteJobFolders⟩).2.2) := by
  simp only [submitLoop]
  rw [if_pos h0, hl]
  simp only [if_true]

theorem submitLoop_cons_ok_remote (req : Request) (env : Env) (r : Int) (k : Nat) (ks : List Nat)
    (st : SubState) (h0 : env.exitCode k = 0) (hl : env.isLocal = false) :
    submitLoop req env r (k :: ks) st
      = ((submitLoop req env r ks
            ⟨scriptOutputsFs env k (copyPhaseFs req k st.fs),
             st.jobIds ++ [env.jobIdOf k],
             st.remoteJobFolders ++ [env.sendDataResult k]⟩).1,
         (Event.invokeScript k (workdirOf k) (cmdArgs req r) ::
            (if ((scriptOutputsFs env k (copyPhaseFs req k st.fs)).lookupPath
                  (workdirOf k ++ ["script.sh"])).isSome then
              [Event.loadFile k (replicaTag k ++ "_script.sh")] else []))
           ++ [Event.remoteCommand k ("mkdir -p " ++ remoteRootOf req),
               Event.sendData k (workdirOf k) (remoteRootOf req),
               Event.submitJobRemote k (env.sendDataResult k ++ "/script.sh")]
           ++ (submitLoop req env r ks
                ⟨scriptOutputsFs env k (copyPhaseFs req k st.fs),
                 st.jobIds ++ [env.jobIdOf k],
                 st.remoteJobFolders ++ [env.sendDataResult k]⟩).2.1,
         (submitLoop req env r ks
            ⟨scriptOutputsFs env k (copyPhaseFs req k st.fs),
             st.jobIds ++ [env.jobIdOf k],
             st.remoteJobFolders ++ [env.sendDataResult k]⟩).2.2) := by
  simp only [submitLoop]
  rw [if_pos h0, hl]
  simp only [Bool.false_eq_true, if_false]

theorem submitLoop_ok (req : Request) (env : Env) (r : Int) (ks : List Nat) (st : SubState)
    (hok : ∀ k ∈ ks, env.exitCode k = 0) :
    (submitLoop req env r ks st).2.2 = none
    ∧ (submitLoop req env r ks st).1.fs = batchFs req env ks st.fs
    ∧ (submitLoop req env r ks st).1.jobIds = st.jobIds ++ ks.map env.jobIdOf
    ∧ (submitLoop req env r ks st).1.remoteJobFolders
        = st.remoteJobFolders ++ (if env.isLocal then [] else ks.map env.sendDataResult) := by
  induction ks generalizing st with
  | nil =>
    rw [submitLoop_nil]
    cases hl : env.isLocal <;> simp [batchFs_nil]
  | cons k ks ih =>
    have hk0 : env.exitCode k = 0 := hok k (by simp)
    have hok' : ∀ j ∈ ks, env.exitCode j = 0 := fun j hj => hok j (by simp [hj])
    cases hl : env.isLocal with
    | true =>
      rw [submitLoop_cons_ok_local req env r k ks st hk0 hl]
      obtain ⟨ho, hfs, hjobs, hfold⟩ :=
        ih ⟨scriptOutputsFs env k (copyPhaseFs req k st.fs),
            st.jobIds ++ [env.jobIdOf k], st.remoteJobFolders⟩ hok'
      refine ⟨ho, ?_, ?_, ?_⟩
      · rw [hfs, batchFs_cons]
      · rw [hjobs]
        simp
      · rw [hfold]
        simp [hl]
    | false =>
      rw [submitLoop_cons_ok_remote req env r k ks st hk0 hl]
      obtain ⟨ho, hfs, hjobs, hfold⟩ :=
        ih ⟨scriptOutputsFs env k (copyPhaseFs req k st.fs),
            st.jobIds ++ [env.jobIdOf k],
            st.remoteJobFolders ++ [env.sendDataResult k]⟩ hok'
      refine ⟨ho, ?_, ?_, ?_⟩
      · rw [hfs, batchFs_cons]
      · rw [hjobs]
        simp
      · rw [hfold]
        simp [hl]

end CreateMD

namespace CreateMD

theorem submitLoop_events_tagged (req : Request) (env : Env) (r : Int) (ks : List Nat)
    (st : SubState) :
    ∀ e ∈ (submitLoop req env r ks st).2.1, ∀ j, e.replicaIdx = some j → j ∈ ks := by
  induction ks generalizing st with
  | nil =>
    rw [submitLoop_nil]
    intro e he
    cases he
  | cons k ks ih =>
    by_cases h0 : env.exitCode k = 0
    · have hload : ∀ e ∈ (if ((scriptOutputsFs env k (copyPhaseFs req k st.fs)).lookupPath
          (workdirOf k ++ ["script.sh"])).isSome then
            [Event.loadFile k (replicaTag k ++ "_script.sh")] else ([] : List Event)),
          e = Event.loadFile k (replicaTag k ++ "_script.sh") := by
        intro e he
        by_cases hs : ((scriptOutputsFs env k (copyPhaseFs req k st.fs)).lookupPath
            (workdirOf k ++ ["script.sh"])).isSome = true
        · rw [if_pos hs] at he
          exact List.mem_singleton.mp he
        · rw [if_neg hs] at he
          cases he
      cases hl : env.isLocal with
      | true =>
        rw [submitLoop_cons_ok_local req env r k ks st h0 hl]
        intro e he j hj
        rcases List.mem_append.mp he with hh | hrest
        · rcases List.mem_append.mp hh with hhead | hsub
          · rcases List.mem_cons.mp hhead with he1 | he2
            · subst he1
              simp only [Event.replicaIdx, Option.some.injEq] at hj
              simp [← hj]
            · have := hload e he2
              subst this
              simp only [Event.replicaIdx, Option.some.injEq] at hj
              simp [← hj]
          · have := List.mem_singleton.mp hsub
            subst this
            simp only [Event.replicaIdx, Option.some.injEq] at hj
            simp [← hj]
        · exact List.mem_cons.mpr (Or.inr (ih _ e hrest j hj))
      | false =>
        rw [submitLoop_cons_ok_remote req env r k ks st h0 hl]
        intro e he j hj
        rcases List.mem_append.mp he with hh | hrest
        · rcases List.mem_append.mp hh with hhead | hsub
          · rcases List.mem_cons.mp hhead with he1 | he2
            · subst he1
              simp only [Event.replicaIdx, Option.some.injEq] at hj
              simp [← hj]
            · have := hload e he2
              subst this
              simp only [Event.replicaIdx, Option.some.injEq] at hj
              simp [← hj]
          · simp only [List.mem_cons, List.not_mem_nil, or_false] at hsub
            rcases hsub with he1 | he1 | he1 <;>
              (subst he1
               simp only [Event.replicaIdx, Option.some.injEq] at hj
               simp [← hj])
        · exact List.mem_cons.mpr (Or.inr (ih _ e hrest j hj))
    · rw [submitLoop_cons_fail req env r k ks st h0]
      intro e he j hj
      have := List.mem_singleton.mp he
      subst this
      simp only [Event.replicaIdx, Option.some.injEq] at hj
      simp [← hj]

theorem submitLoop_ok_submitted (req : Request) (env : Env) (r : Int) (ks : List Nat)
    (st : SubState) (hok : ∀ k ∈ ks, env.exitCode k = 0) :
    ∀ k ∈ ks, submittedTo (submitLoop req env r ks st).2.1 k := by
  induction ks generalizing st with
  | nil => intro k hk; cases hk
  | cons k' ks ih =>
    have hk0 : env.exitCode k' = 0 := hok k' (by simp)
    have hok' : ∀ j ∈ ks, env.exitCode j = 0 := fun j hj => hok j (by simp [hj])
    intro k hk
    cases hl : env.isLocal with
    | true =>
      rw [submitLoop_cons_ok_local req env r k' ks st hk0 hl]
      rcases List.mem_cons.mp hk with hkk | hks
      · subst hkk
        exact Or.inl ⟨workdirOf k ++ ["script.sh"], by simp⟩
      · rcases ih ⟨scriptOutputsFs env k' (copyPhaseFs req k' st.fs),
            st.jobIds ++ [env.jobIdOf k'], st.remoteJobFolders⟩ hok' k hks with ⟨p, hp⟩ | ⟨s, hs⟩
        · exact Or.inl ⟨p, by simp [hp]⟩
        · exact Or.inr ⟨s, by simp [hs]⟩
    | false =>
      rw [submitLoop_cons_ok_remote req env r k' ks st hk0 hl]
      rcases List.mem_cons.mp hk with hkk | hks
      · subst hkk
        exact Or.inr ⟨env.sendDataResult k ++ "/script.sh", by simp⟩
      · rcases ih ⟨scriptOutputsFs env k' (copyPhaseFs req k' st.fs),
            st.jobIds ++ [env.jobIdOf k'],
            st.remoteJobFolders ++ [env.sendDataResult k']⟩ hok' k hks with ⟨p, hp⟩ | ⟨s, hs⟩
        · exact Or.inl ⟨p, by simp [hp]⟩
        · exact Or.inr ⟨s, by simp [hs]⟩

theorem submitLoop_fail_after (req : Request) (env : Env) (r : Int) (as bs : List Nat)
    (k : Nat) (st : SubState)
    (hok : ∀ j ∈ as, env.exitCode j = 0) (hf : ¬ env.exitCode k = 0) :
    (submitLoop req env r (as ++ k :: bs) st).1.fs
        = copyPhaseFs req k (batchFs req env as st.fs)
    ∧ (submitLoop req env r (as ++ k :: bs) st).1.jobIds = st.jobIds ++ as.map env.jobIdOf
    ∧ (submitLoop req env r (as ++ k :: bs) st).2.1
        = (submitLoop req env r as st).2.1
          ++ [Event.invokeScript k (workdirOf k) (cmdArgs req r)]
    ∧ (submitLoop req env r (as ++ k :: bs) st).2.2
        = some (BlockError.externalScriptFailure k (env.stderrOf k)) := by
  induction as generalizing st with
  | nil =>
    simp only [List.nil_append]
    rw [submitLoop_cons_fail req env r k bs st hf]
    rw [submitLoop_nil]
    exact ⟨rfl, by simp, by simp, rfl⟩
  | cons a as ih =>
    have ha0 : env.exitCode a = 0 := hok a (by simp)
    have hok' : ∀ j ∈ as, env.exitCode j = 0 := fun j hj => hok j (by simp [hj])
    cases hl : env.isLocal with
    | true =>
      rw [List.cons_append, submitLoop_cons_ok_local req env r a (as ++ k :: bs) st ha0 hl,
          submitLoop_cons_ok_local req env r a as st ha0 hl]
      obtain ⟨hfs, hjobs, hevs, ho⟩ :=
        ih ⟨scriptOutputsFs env a (copyPhaseFs req a st.fs),
            st.jobIds ++ [env.jobIdOf a], st.remoteJobFolders⟩ hok'
      refine ⟨?_, ?_, ?_, ho⟩
      · rw [hfs, batchFs_cons]
      · rw [hjobs]; simp
      · rw [hevs]; simp
    | false =>
      rw [List.cons_append, submitLoop_cons_ok_remote req env r a (as ++ k :: bs) st ha0 hl,
          submitLoop_cons_ok_remote req env r a as st ha0 hl]
      obtain ⟨hfs, hjobs, hevs, ho⟩ :=
        ih ⟨scriptOutputsFs env a (copyPhaseFs req a st.fs),
            st.jobIds ++ [env.jobIdOf a],
            st.remoteJobFolders ++ [env.sendDataResult a]⟩ hok'
      refine ⟨?_, ?_, ?_, ho⟩
      · rw [hfs, batchFs_cons]
      · rw [hjobs]; simp
      · rw [hevs]; simp

end CreateMD

/-! ## Lemmas about `runScript` -/

theorem purge_no_root_entries (fs : Fs) (root : String) :
    ∀ e ∈ fs.purge root, e.1.head? ≠ some root := by
  intro e he
  have := (List.mem_filter.mp he).2
  simpa [bne] using this

theorem purge_idem (fs : Fs) (root : String) : (fs.purge root).purge root = fs.purge root :=
  purge_of_no_root _ root (purge_no_root_entries fs root)

theorem purge_rootClean (fs : Fs) (root : String) : (fs.purge root).rootClean root = true := by
  unfold Fs.rootClean
  apply Bool.or_eq_true_iff.mpr
  refine Or.inr (List.all_eq_true.mpr ?_)
  intro e he
  have := purge_no_root_entries fs root e he
  simpa [bne] using this

theorem lookupPath_purge_root (fs : Fs) (root : String) (q : List String)
    (hq : q.head? = some root) : (fs.purge root).lookupPath q = none :=
  lookupPath_of_no_root _ root q (purge_no_root_entries fs root) hq

namespace CreateMD

theorem runScript_valid_clean (req : Request) (env : Env) (fs : Fs) (r : Int)
    (hr : resolveLastResidue req.lastResidue req.lastResidueInteractive = some r)
    (hm : req.machine ∈ allowedMachines)
    (hclean : fs.rootClean rootDirName = true) :
    runScript req env fs
      = ⟨(submitLoop req env r (idxFrom 1 req.replicas)
            ⟨(fs.purge rootDirName).mkdirs [rootDirName], [], []⟩).1.fs,
         (if (fs.lookupPath [rootDirName]).isSome then [Event.warn removalWarnMsg] else [])
           ++ (submitLoop req env r (idxFrom 1 req.replicas)
                ⟨(fs.purge rootDirName).mkdirs [rootDirName], [], []⟩).2.1,
         (submitLoop req env r (idxFrom 1 req.replicas)
            ⟨(fs.purge rootDirName).mkdirs [rootDirName], [], []⟩).1.jobIds,
         (if (submitLoop req env r (idxFrom 1 req.replicas)
              ⟨(fs.purge rootDirName).mkdirs [rootDirName], [], []⟩).2.2.isNone
             && !(submitLoop req env r (idxFrom 1 req.replicas)
              ⟨(fs.purge rootDirName).mkdirs [rootDirName], [], []⟩).1.remoteJobFolders.isEmpty then
            some (submitLoop req env r (idxFrom 1 req.replicas)
              ⟨(fs.purge rootDirName).mkdirs [rootDirName], [], []⟩).1.remoteJobFolders
          else none),
         (submitLoop req env r (idxFrom 1 req.replicas)
            ⟨(fs.purge rootDirName).mkdirs [rootDirName], [], []⟩).2.2⟩ := by
  unfold runScript
  rw [hr]
  simp only [if_pos hm]
  by_cases hroot : (fs.lookupPath [rootDirName]).isSome = true
  · simp only [hroot, if_true]
    rw [rmtree_root_eq_purge]
  · rcases rootClean_cases fs rootDirName hclean with hc | hc
    · exact absurd hc hroot
    · have hpe : fs.purge rootDirName = fs := purge_of_no_root fs rootDirName hc
      simp only [hroot, Bool.false_eq_true, if_false]
      rw [hpe]

theorem startFs_root_isSome (fs : Fs) :
    (((fs.purge rootDirName).mkdirs [rootDirName]).lookupPath [rootDirName]).isSome = true :=
  lookupPath_mkdirs_one_self_isSome _ _

theorem startFs_workdir_none (fs : Fs) (j : Nat) :
    ((fs.purge rootDirName).mkdirs [rootDirName]).lookupPath (workdirOf j) = none := by
  rw [lookupPath_mkdirs_one_ne _ _ _ (workdirOf_ne_root j)]
  exact lookupPath_purge_root fs rootDirName (workdirOf j) (by simp [workdirOf])

theorem startFs_children_nil (fs : Fs) :
    ((fs.purge rootDirName).mkdirs [rootDirName]).childrenOf rootDirName = [] := by
  rw [mkdirs_one, childrenOf_addIfAbsent_other _ _ _ _ (by intro b; simp)]
  exact childrenOf_nil_of_no_root _ _ (purge_no_root_entries fs rootDirName)

theorem submittedTo_mono (evs evs' : List Event) (j : Nat) (h : submittedTo evs j)
    (hsub : ∀ e ∈ evs, e ∈ evs') : submittedTo evs' j := by
  rcases h with ⟨p, hp⟩ | ⟨s, hs⟩
  · exact Or.inl ⟨p, hsub _ hp⟩
  · exact Or.inr ⟨s, hsub _ hs⟩

end CreateMD

/-! ## First-invocation and resolution lemmas -/

theorem firstInvokeArgs_invoke_cons (k : Nat) (wd : List String) (args : List String)
    (evs : List Event) :
    firstInvokeArgs (Event.invokeScript k wd args :: evs) = some args := rfl

theorem firstInvokeArgs_append_none (l1 l2 : List Event) (h : firstInvokeArgs l1 = none) :
    firstInvokeArgs (l1 ++ l2) = firstInvokeArgs l2 := by
  induction l1 with
  | nil => rfl
  | cons a l1 ih =>
    cases a <;> first
      | (rw [firstInvokeArgs_invoke_cons] at h; cases h)
      | exact ih h

namespace CreateMD

theorem resolveLastResidue_explicit (v : Int) (i : Option Int) (hv : v ≠ 0) :
    resolveLastResidue (some v) i = some v := by
  unfold resolveLastResidue pyTruthy
  simp [hv]

theorem resolveLastResidue_interactive (e : Option Int) (w : Int)
    (he : pyTruthy e = false) (hw : w ≠ 0) :
    resolveLastResidue e (some w) = some w := by
  unfold resolveLastResidue
  rw [he]
  simp [pyTruthy, hw]

theorem resolveLastResidue_none (e i : Option Int)
    (he : pyTruthy e = false) (hi : pyTruthy i = false) :
    resolveLastResidue e i = none := by
  unfold resolveLastResidue
  rw [he]
  simp [hi]

theorem submitLoop_events_cons_head (req : Request) (env : Env) (r : Int) (k : Nat)
    (ks : List Nat) (st : SubState) :
    ∃ tl, (submitLoop req env r (k :: ks) st).2.1
      = Event.invokeScript k (workdirOf k) (cmdArgs req r) :: tl := by
  by_cases h0 : env.exitCode k = 0
  · cases hl : env.isLocal with
    | true =>
      rw [submitLoop_cons_ok_local req env r k ks st h0 hl]
      exact ⟨_, List.cons_append _ _ _⟩
    | false =>
      rw [submitLoop_cons_ok_remote req env r k ks st h0 hl]
      exact ⟨_, List.cons_append _ _ _⟩
  · rw [submitLoop_cons_fail req env r k ks st h0]
    exact ⟨[], rfl⟩

theorem runScript_firstInvoke (req : Request) (env : Env) (fs : Fs) (r : Int)
    (hr : resolveLastResidue req.lastResidue req.lastResidueInteractive = some r)
    (hm : req.machine ∈ allowedMachines) (hN : 1 ≤ req.replicas)
    (hclean : fs.rootClean rootDirName = true) :
    firstInvokeArgs (runScript req env fs).events = some (cmdArgs req r) := by
  rw [runScript_valid_clean req env fs r hr hm hclean]
  obtain ⟨n, hn⟩ : ∃ n, req.replicas = n + 1 := ⟨req.replicas - 1, by omega⟩
  rw [hn, idxFrom_one_succ]
  obtain ⟨tl, htl⟩ := submitLoop_events_cons_head req env r 1 (idxFrom 2 n)
    ⟨(fs.purge rootDirName).mkdirs [rootDirName], [], []⟩
  show firstInvokeArgs (_ ++ _) = _
  rw [firstInvokeArgs_append_none _ _ (by
    by_cases hroot : (fs.lookupPath [rootDirName]).isSome = true
    · rw [if_pos hroot]
      rfl
    · rw [if_neg hroot]
      rfl)]
  rw [htl]
  exact firstInvokeArgs_invoke_cons 1 _ _ tl

end CreateMD

/-! ## Claims C7, C8 and C9 -/

namespace CreateMD

/-- Claim C7 counterexample: a request whose backend identifier `orion` is
outside the supported set but whose last residue is also unresolvable fails
with `missingRequiredInput`, not with `unsupportedBackend` — the last-residue
check precedes the backend check. -/
theorem claim_C7_counterexample :
    (runScript sampleReqOrionMissing sampleEnvLocal []).outcome
      = some BlockError.missingRequiredInput
    ∧ (runScript sampleReqOrionMissing sampleEnvLocal []).outcome
      ≠ some (BlockError.unsupportedBackend "orion" allowedMachines) := by
  constructor
  · rfl
  · decide

/-- Claim C7 (amended): for every request with a resolvable last residue
whose backend identifier is not in the supported set
`{csuc, local, picard, slurm}`, `run_script` fails with an
`unsupportedBackend` error carrying the offending identifier and the
supported set, with no filesystem mutation at all (in particular none beyond
directory creation), no events, no submitted job and no persisted handle
list. -/
theorem claim_C7 (req : Request) (env : Env) (fs : Fs) (r : Int)
    (hr : resolveLastResidue req.lastResidue req.lastResidueInteractive = some r)
    (hm : req.machine ∉ allowedMachines) :
    runScript req env fs
      = ⟨fs, [], [], none, some (BlockError.unsupportedBackend req.machine allowedMachines)⟩ := by
  unfold runScript
  rw [hr]
  simp only [if_neg hm]

/-- Witness for C7: the concrete request with backend `orion` and explicit
last residue 150. -/
theorem claim_C7_witness :
    runScript sampleReqOrion sampleEnvLocal []
      = ⟨[], [], [], none, some (BlockError.unsupportedBackend "orion" allowedMachines)⟩ :=
  claim_C7 sampleReqOrion sampleEnvLocal [] 150 rfl (by decide)

/-- Claim C8: when neither the explicit last-residue index nor an interactive
residue selection is supplied, `run_script` fails with
`missingRequiredInput` before doing anything at all: the filesystem is
untouched and the event trace is empty, so in particular no subprocess was
invoked. -/
theorem claim_C8 (req : Request) (env : Env) (fs : Fs)
    (h1 : req.lastResidue = none) (h2 : req.lastResidueInteractive = none) :
    runScript req env fs = ⟨fs, [], [], none, some BlockError.missingRequiredInput⟩ := by
  have hres : resolveLastResidue req.lastResidue req.lastResidueInteractive = none := by
    rw [h1, h2]
    rfl
  unfold runScript
  rw [hres]

/-- Witness for C8: the concrete request with both last-residue sources
absent. -/
theorem claim_C8_witness :
    runScript sampleReqMissing sampleEnvLocal []
      = ⟨[], [], [], none, some BlockError.missingRequiredInput⟩ :=
  claim_C8 sampleReqMissing sampleEnvLocal [] rfl rfl

/-- Claim C9 counterexample: with an explicit last-residue index of 0 and an
interactive selection of 5, the resolved value is the interactive 5, not the
explicit 0 — Python's `or` treats the explicit 0 as absent, so the claim
that the explicit index always takes precedence fails. -/
theorem claim_C9_counterexample :
    resolveLastResidue (some 0) (some 5) = some 5
    ∧ resolveLastResidue (some 0) (some 5) ≠ some 0 := by
  constructor
  · rfl
  · decide

/-- Claim C9 (amended): a non-zero explicit last-residue index takes
precedence over the interactive selection and is the value interpolated into
the generator-script command line; an explicit value of zero or `None` is
treated as absent and a non-zero interactive value is used instead; and the
submission fails with `missingRequiredInput` exactly when both sources are
absent or zero. -/
theorem claim_C9 (req : Request) (env : Env) (fs : Fs)
    (hm : req.machine ∈ allowedMachines) (hN : 1 ≤ req.replicas)
    (hclean : fs.rootClean rootDirName = true) :
    (∀ v : Int, req.lastResidue = some v → v ≠ 0 →
      firstInvokeArgs (runScript req env fs).events = some (cmdArgs req v))
    ∧ (∀ w : Int, pyTruthy req.lastResidue = false →
        req.lastResidueInteractive = some w → w ≠ 0 →
        firstInvokeArgs (runScript req env fs).events = some (cmdArgs req w))
    ∧ (pyTruthy req.lastResidue = false → pyTruthy req.lastResidueInteractive = false →
        (runScript req env fs).outcome = some BlockError.missingRequiredInput) := by
  refine ⟨?_, ?_, ?_⟩
  · intro v hv hv0
    refine runScript_firstInvoke req env fs v ?_ hm hN hclean
    rw [hv]
    exact resolveLastResidue_explicit v _ hv0
  · intro w he hw hw0
    refine runScript_firstInvoke req env fs w ?_ hm hN hclean
    rw [hw]
    exact resolveLastResidue_interactive _ w he hw0
  · intro he hi
    have hres : resolveLastResidue req.lastResidue req.lastResidueInteractive = none :=
      resolveLastResidue_none _ _ he hi
    unfold runScript
    rw [hres]

/-- Witness for C9: with explicit index 7 and interactive selection 3, the
first generator invocation receives the command line built from 7. -/
theorem claim_C9_witness :
    firstInvokeArgs (runScript sampleReqBoth sampleEnvLocal []).events
      = some (cmdArgs sampleReqBoth 7) :=
  (claim_C9 sampleReqBoth sampleEnvLocal [] (by decide) (by decide) (by decide)).1 7 rfl
    (by decide)

end CreateMD

/-! ## Claim C1 -/

namespace CreateMD

theorem idxFrom_split_at (k n : Nat) (hk1 : 1 ≤ k) (hkN : k ≤ n) :
    idxFrom 1 n = idxFrom 1 (k - 1) ++ (k :: idxFrom (k + 1) (n - k)) := by
  have h1 : idxFrom 1 n = idxFrom 1 ((k - 1) + ((n - k) + 1)) := by
    congr 1
    omega
  rw [h1, idxFrom_append]
  have h2 : 1 + (k - 1) = k := by omega
  rw [h2]
  rfl

/-- Claim C1: for a valid request, if the generator script of replica `k`
(with every earlier replica's script succeeding) exits non-zero, the batch
fails with `externalScriptFailure` carrying replica `k`'s captured error
stream; every event in the trace is tagged with a replica index at most `k`
(so replicas `k+1..N` are never attempted); no workspace directory exists
for any replica beyond `k`; exactly `k-1` job identifiers were collected;
and each replica `1..k-1` still has its job-submission event in the trace
(no rollback). -/
theorem claim_C1 (req : Request) (env : Env) (fs : Fs) (r : Int) (k : Nat)
    (hr : resolveLastResidue req.lastResidue req.lastResidueInteractive = some r)
    (hm : req.machine ∈ allowedMachines)
    (hclean : fs.rootClean rootDirName = true)
    (hk1 : 1 ≤ k) (hkN : k ≤ req.replicas)
    (hf : ¬ env.exitCode k = 0)
    (hprev : ∀ j ∈ idxFrom 1 (k - 1), env.exitCode j = 0) :
    (runScript req env fs).outcome
        = some (BlockError.externalScriptFailure k (env.stderrOf k))
    ∧ (∀ e ∈ (runScript req env fs).events, ∀ j, e.replicaIdx = some j → j ≤ k)
    ∧ (∀ j, k < j → (runScript req env fs).fs.lookupPath (workdirOf j) = none)
    ∧ (runScript req env fs).jobIds.length = k - 1
    ∧ (∀ j ∈ idxFrom 1 (k - 1), submittedTo (runScript req env fs).events j) := by
  rw [runScript_valid_clean req env fs r hr hm hclean,
      idxFrom_split_at k req.replicas hk1 hkN]
  obtain ⟨hfs, hjobs, hevs, ho⟩ := submitLoop_fail_after req env r
    (idxFrom 1 (k - 1)) (idxFrom (k + 1) (req.replicas - k)) k
    ⟨(fs.purge rootDirName).mkdirs [rootDirName], [], []⟩ hprev hf
  refine ⟨ho, ?_, ?_, ?_, ?_⟩
  · intro e he j hj
    rw [hevs] at he
    rcases List.mem_append.mp he with hw | hl
    · by_cases hroot : (fs.lookupPath [rootDirName]).isSome = true
      · rw [if_pos hroot] at hw
        have := List.mem_singleton.mp hw
        subst this
        cases hj
      · rw [if_neg hroot] at hw
        cases hw
    · rcases List.mem_append.mp hl with hpre | hinv
      · have hj' := submitLoop_events_tagged req env r (idxFrom 1 (k - 1)) _ e hpre j hj
        have := (mem_idxFrom j 1 (k - 1)).mp hj'
        omega
      · have := List.mem_singleton.mp hinv
        subst this
        simp only [Event.replicaIdx, Option.some.injEq] at hj
        omega
  · intro j hj
    rw [hfs]
    have hjk : j ≠ k := by omega
    apply copyPhase_none req k _ (workdirOf j) (workdirOf_ne_root j) (workdirOf_ne j k hjk)
      (fun x => (workdirOf_ext_ne_workdir k j x).symm)
    have hcond : ∀ i ∈ idxFrom 1 (k - 1),
        workdirOf j ≠ workdirOf i ∧ ∀ x, workdirOf j ≠ workdirOf i ++ [x] := by
      intro i hi
      have hi' := (mem_idxFrom i 1 (k - 1)).mp hi
      have hij : j ≠ i := by omega
      exact ⟨workdirOf_ne j i hij, fun x => (workdirOf_ext_ne_workdir i j x).symm⟩
    exact batchFs_none req env (idxFrom 1 (k - 1)) _ (workdirOf j) hcond
      (workdirOf_ne_root j) (startFs_workdir_none fs j)
  · rw [hjobs]
    simp [length_idxFrom]
  · intro j hj
    have hsj := submitLoop_ok_submitted req env r (idxFrom 1 (k - 1))
      ⟨(fs.purge rootDirName).mkdirs [rootDirName], [], []⟩ hprev j hj
    refine submittedTo_mono _ _ j hsj (fun e he => ?_)
    rw [hevs]
    simp only [List.mem_append]
    exact Or.inr (Or.inl he)

/-- Witness for C1: three replicas, replica 2's script fails; replica 1's
job stays submitted, replica 3 is never attempted. -/
theorem claim_C1_witness :
    (runScript sampleReq3 sampleEnvFail2 []).outcome
        = some (BlockError.externalScriptFailure 2 (sampleEnvFail2.stderrOf 2))
    ∧ (∀ e ∈ (runScript sampleReq3 sampleEnvFail2 []).events,
        ∀ j, e.replicaIdx = some j → j ≤ 2)
    ∧ (∀ j, 2 < j →
        (runScript sampleReq3 sampleEnvFail2 []).fs.lookupPath (workdirOf j) = none)
    ∧ (runScript sampleReq3 sampleEnvFail2 []).jobIds.length = 2 - 1
    ∧ (∀ j ∈ idxFrom 1 (2 - 1),
        submittedTo (runScript sampleReq3 sampleEnvFail2 []).events j) :=
  claim_C1 sampleReq3 sampleEnvFail2 [] 150 2 rfl (by decide) (by decide) (by decide)
    (by decide) (by decide) (by decide)

end CreateMD

/-! ## Claims C2 and C4 -/

namespace CreateMD

/-- Claim C2: a valid request with `replica_count = N ≥ 1` whose generator
invocations all succeed produces exactly the `N` replica subdirectories
`replica_01..replica_0N` (2-digit zero-padded) under the batch workspace
root — the root's child list is exactly `[replicaTag 1, ..., replicaTag N]`
— and each of them is a directory holding a copy of the topology input and a
copy of the coordinates input under their original filenames.  The two input
filenames differ because their accepted extension sets are disjoint. -/
theorem claim_C2 (req : Request) (env : Env) (fs : Fs) (r : Int)
    (hr : resolveLastResidue req.lastResidue req.lastResidueInteractive = some r)
    (hm : req.machine ∈ allowedMachines)
    (hclean : fs.rootClean rootDirName = true)
    (hN : 1 ≤ req.replicas)
    (hok : ∀ k ∈ idxFrom 1 req.replicas, env.exitCode k = 0)
    (hnames : req.prmtopName ≠ req.inpcrdName) :
    (runScript req env fs).outcome = none
    ∧ (runScript req env fs).fs.childrenOf rootDirName
        = (idxFrom 1 req.replicas).map replicaTag
    ∧ ∀ k ∈ idxFrom 1 req.replicas,
        ((runScript req env fs).fs.lookupPath (workdirOf k)).isSome = true
        ∧ (runScript req env fs).fs.lookupPath (workdirOf k ++ [req.prmtopName])
            = some (FsNode.file req.prmtopContent)
        ∧ (runScript req env fs).fs.lookupPath (workdirOf k ++ [req.inpcrdName])
            = some (FsNode.file req.inpcrdContent) := by
  have hcan := runScript_valid_clean req env fs r hr hm hclean
  obtain ⟨ho, hfs, hjobs, hfold⟩ := submitLoop_ok req env r (idxFrom 1 req.replicas)
    ⟨(fs.purge rootDirName).mkdirs [rootDirName], [], []⟩ hok
  have hfs_eq : (runScript req env fs).fs
      = batchFs req env (idxFrom 1 req.replicas) ((fs.purge rootDirName).mkdirs [rootDirName]) :=
    (congrArg RunResult.fs hcan).trans hfs
  refine ⟨(congrArg RunResult.outcome hcan).trans ho, ?_, ?_⟩
  · rw [hfs_eq,
        childrenOf_batchFs req env _ _ (startFs_root_isSome fs)
          (fun j _ => startFs_workdir_none fs j) (idxFrom_nodup 1 req.replicas),
        startFs_children_nil]
    simp
  · intro k hk
    rw [hfs_eq]
    exact ⟨batchFs_lookup_workdir_isSome req env _ _ k hk,
           batchFs_lookup_prmtop req env _ _ k hk (idxFrom_nodup 1 req.replicas) hnames,
           batchFs_lookup_inpcrd req env _ _ k hk (idxFrom_nodup 1 req.replicas)⟩

/-- Witness for C2: the sample request with two replicas on the local
backend. -/
theorem claim_C2_witness :
    (runScript sampleReq sampleEnvLocal []).outcome = none
    ∧ (runScript sampleReq sampleEnvLocal []).fs.childrenOf rootDirName
        = (idxFrom 1 sampleReq.replicas).map replicaTag
    ∧ ∀ k ∈ idxFrom 1 sampleReq.replicas,
        ((runScript sampleReq sampleEnvLocal []).fs.lookupPath (workdirOf k)).isSome = true
        ∧ (runScript sampleReq sampleEnvLocal []).fs.lookupPath
            (workdirOf k ++ [sampleReq.prmtopName])
            = some (FsNode.file sampleReq.prmtopContent)
        ∧ (runScript sampleReq sampleEnvLocal []).fs.lookupPath
            (workdirOf k ++ [sampleReq.inpcrdName])
            = some (FsNode.file sampleReq.inpcrdContent) :=
  claim_C2 sampleReq sampleEnvLocal [] 150 rfl (by decide) (by decide) (by decide)
    (by decide) (by decide)

/-- Claim C4: for every successful batch submission, the result carries one
job identifier per replica in submission order, and on a non-local backend
the handle list — one remote workspace path per replica, appended in
submission order — is persisted in the batch-scoped `extraData` side
storage (from which `download_data` later reads it back). -/
theorem claim_C4 (req : Request) (env : Env) (fs : Fs) (r : Int)
    (hr : resolveLastResidue req.lastResidue req.lastResidueInteractive = some r)
    (hm : req.machine ∈ allowedMachines)
    (hclean : fs.rootClean rootDirName = true)
    (hN : 1 ≤ req.replicas)
    (hok : ∀ k ∈ idxFrom 1 req.replicas, env.exitCode k = 0) :
    (runScript req env fs).outcome = none
    ∧ (runScript req env fs).jobIds = (idxFrom 1 req.replicas).map env.jobIdOf
    ∧ (env.isLocal = false →
        (runScript req env fs).extraData
          = some ((idxFrom 1 req.replicas).map env.sendDataResult)) := by
  have hcan := runScript_valid_clean req env fs r hr hm hclean
  obtain ⟨ho, hfs, hjobs, hfold⟩ := submitLoop_ok req env r (idxFrom 1 req.replicas)
    ⟨(fs.purge rootDirName).mkdirs [rootDirName], [], []⟩ hok
  refine ⟨(congrArg RunResult.outcome hcan).trans ho, ?_, ?_⟩
  · have h := (congrArg RunResult.jobIds hcan).trans hjobs
    simpa using h
  · intro hl
    have hx := congrArg RunResult.extraData hcan
    rw [hx, ho, hfold, hl]
    obtain ⟨n, hn⟩ : ∃ n, req.replicas = n + 1 := ⟨req.replicas - 1, by omega⟩
    rw [hn]
    simp [idxFrom]

/-- Witness for C4: the sample request on the remote backend `picard` with
two replicas. -/
theorem claim_C4_witness :
    (runScript sampleReqPicard sampleEnvRemote []).outcome = none
    ∧ (runScript sampleReqPicard sampleEnvRemote []).jobIds
        = (idxFrom 1 sampleReqPicard.replicas).map sampleEnvRemote.jobIdOf
    ∧ (sampleEnvRemote.isLocal = false →
        (runScript sampleReqPicard sampleEnvRemote []).extraData
          = some ((idxFrom 1 sampleReqPicard.replicas).map sampleEnvRemote.sendDataResult)) :=
  claim_C4 sampleReqPicard sampleEnvRemote [] 150 rfl (by decide) (by decide) (by decide)
    (by decide)

end CreateMD

/-! ## Claim C3 -/

namespace CreateMD

/-- Claim C3: for every request that passes validation, the batch workspace
root is destroyed and recreated before any replica work, so the resulting
filesystem, outcome, job identifiers and persisted handles are exactly those
of a run started with nothing under the workspace root: resubmitting against
an existing workspace root yields a workspace with no files from the prior
run. -/
theorem claim_C3 (req : Request) (env : Env) (fs : Fs) (r : Int)
    (hr : resolveLastResidue req.lastResidue req.lastResidueInteractive = some r)
    (hm : req.machine ∈ allowedMachines)
    (hclean : fs.rootClean rootDirName = true) :
    (runScript req env fs).fs = (runScript req env (fs.purge rootDirName)).fs
    ∧ (runScript req env fs).outcome = (runScript req env (fs.purge rootDirName)).outcome
    ∧ (runScript req env fs).jobIds = (runScript req env (fs.purge rootDirName)).jobIds
    ∧ (runScript req env fs).extraData = (runScript req env (fs.purge rootDirName)).extraData := by
  have h1 := runScript_valid_clean req env fs r hr hm hclean
  have h2 := runScript_valid_clean req env (fs.purge rootDirName) r hr hm
    (purge_rootClean fs rootDirName)
  rw [purge_idem] at h2
  exact ⟨(congrArg RunResult.fs h1).trans (congrArg RunResult.fs h2).symm,
         (congrArg RunResult.outcome h1).trans (congrArg RunResult.outcome h2).symm,
         (congrArg RunResult.jobIds h1).trans (congrArg RunResult.jobIds h2).symm,
         (congrArg RunResult.extraData h1).trans (congrArg RunResult.extraData h2).symm⟩

/-- Witness for C3: a workspace root holding a stale file from a prior run. -/
theorem claim_C3_witness :
    (runScript sampleReq sampleEnvLocal
        [([rootDirName], FsNode.dir), ([rootDirName, "stale"], FsNode.file "old")]).fs
      = (runScript sampleReq sampleEnvLocal
          (Fs.purge [([rootDirName], FsNode.dir), ([rootDirName, "stale"], FsNode.file "old")]
            rootDirName)).fs
    ∧ (runScript sampleReq sampleEnvLocal
        [([rootDirName], FsNode.dir), ([rootDirName, "stale"], FsNode.file "old")]).outcome
      = (runScript sampleReq sampleEnvLocal
          (Fs.purge [([rootDirName], FsNode.dir), ([rootDirName, "stale"], FsNode.file "old")]
            rootDirName)).outcome
    ∧ (runScript sampleReq sampleEnvLocal
        [([rootDirName], FsNode.dir), ([rootDirName, "stale"], FsNode.file "old")]).jobIds
      = (runScript sampleReq sampleEnvLocal
          (Fs.purge [([rootDirName], FsNode.dir), ([rootDirName, "stale"], FsNode.file "old")]
            rootDirName)).jobIds
    ∧ (runScript sampleReq sampleEnvLocal
        [([rootDirName], FsNode.dir), ([rootDirName, "stale"], FsNode.file "old")]).extraData
      = (runScript sampleReq sampleEnvLocal
          (Fs.purge [([rootDirName], FsNode.dir), ([rootDirName, "stale"], FsNode.file "old")]
            rootDirName)).extraData :=
  claim_C3 sampleReq sampleEnvLocal
    [([rootDirName], FsNode.dir), ([rootDirName, "stale"], FsNode.file "old")] 150 rfl
    (by decide) (by decide)

end CreateMD

/-! ## Download-loop lemmas -/

namespace CreateMD

theorem dlLoop_nil (env : DlEnv) (i : Nat) (fs : Fs) : dlLoop env [] i fs = (fs, []) := rfl

theorem dlLoop_cons (env : DlEnv) (h : String) (hs : List String) (i : Nat) (fs : Fs) :
    dlLoop env (h :: hs) i fs
      = ((dlLoop env hs (i + 1) (dlStepFs env h i fs)).1,
         Event.getData i (h ++ "/preprod") [rootDirName, replicaTag i, "preprod"] ::
           Event.getData i (h ++ "/prod") [rootDirName, replicaTag i, "prod"] ::
           (dlLoop env hs (i + 1) (dlStepFs env h i fs)).2) := rfl

theorem dlStep_preserve {v : FsNode} (env : DlEnv) (h : String) (i : Nat) (fs : Fs)
    (q : List String) (hq : ∀ s, q ≠ [rootDirName, replicaTag i, s])
    (hv : fs.lookupPath q = some v) : (dlStepFs env h i fs).lookupPath q = some v := by
  unfold dlStepFs
  by_cases h1 : env.getDataOk (h ++ "/preprod") <;> by_cases h2 : env.getDataOk (h ++ "/prod") <;>
    simp [h1, h2] <;>
    repeat (first
      | exact lookupPath_mkdirs_preserve fs _ q hv
      | rw [lookupPath_setEntry_ne _ _ _ _ (hq _)])

theorem dlStep_isSome_mono (env : DlEnv) (h : String) (i : Nat) (fs : Fs) (q : List String)
    (hv : (fs.lookupPath q).isSome = true) :
    ((dlStepFs env h i fs).lookupPath q).isSome = true := by
  unfold dlStepFs
  by_cases h1 : env.getDataOk (h ++ "/preprod") <;> by_cases h2 : env.getDataOk (h ++ "/prod") <;>
    simp [h1, h2] <;>
    repeat (first
      | exact lookupPath_mkdirs_isSome fs _ q hv
      | apply lookupPath_setEntry_isSome)

theorem dlStep_lookup_dir_isSome (env : DlEnv) (h : String) (i : Nat) (fs : Fs) :
    ((dlStepFs env h i fs).lookupPath [rootDirName, replicaTag i]).isSome = true := by
  unfold dlStepFs
  by_cases h1 : env.getDataOk (h ++ "/preprod") <;> by_cases h2 : env.getDataOk (h ++ "/prod") <;>
    simp [h1, h2] <;>
    (repeat apply lookupPath_setEntry_isSome) <;>
    exact lookupPath_mkdirs_self_isSome fs _ _

theorem dlStep_lookup_preprod (env : DlEnv) (h : String) (i : Nat) (fs : Fs)
    (hok : env.getDataOk (h ++ "/preprod") = true) :
    (dlStepFs env h i fs).lookupPath [rootDirName, replicaTag i, "preprod"]
      = some FsNode.dir := by
  unfold dlStepFs
  by_cases h2 : env.getDataOk (h ++ "/prod") <;> simp [hok, h2]
  · rw [lookupPath_setEntry_ne _ _ _ _ (by simp)]
    exact lookupPath_setEntry_self _ _ _
  · exact lookupPath_setEntry_self _ _ _

theorem dlStep_lookup_prod (env : DlEnv) (h : String) (i : Nat) (fs : Fs)
    (hok : env.getDataOk (h ++ "/prod") = true) :
    (dlStepFs env h i fs).lookupPath [rootDirName, replicaTag i, "prod"]
      = some FsNode.dir := by
  unfold dlStepFs
  simp [hok]
  exact lookupPath_setEntry_self _ _ _

theorem dlLoop_preserve {v : FsNode} (env : DlEnv) (hs : List String) (i : Nat) (fs : Fs)
    (q : List String) (hq : ∀ j s, q ≠ [rootDirName, replicaTag j, s])
    (hv : fs.lookupPath q = some v) : ((dlLoop env hs i fs).1).lookupPath q = some v := by
  induction hs generalizing i fs with
  | nil => exact hv
  | cons h hs ih =>
    rw [dlLoop_cons]
    exact ih (i + 1) _ (dlStep_preserve env h i fs q (fun s => hq i s) hv)

theorem dlLoop_isSome_mono (env : DlEnv) (hs : List String) (i : Nat) (fs : Fs)
    (q : List String) (hv : (fs.lookupPath q).isSome = true) :
    (((dlLoop env hs i fs).1).lookupPath q).isSome = true := by
  induction hs generalizing i fs with
  | nil => exact hv
  | cons h hs ih =>
    rw [dlLoop_cons]
    exact ih (i + 1) _ (dlStep_isSome_mono env h i fs q hv)

theorem dlLoop_preserve_lt {v : FsNode} (env : DlEnv) (hs : List String) (i j : Nat) (fs : Fs)
    (s : String) (hj : j < i)
    (hv : fs.lookupPath [rootDirName, replicaTag j, s] = some v) :
    ((dlLoop env hs i fs).1).lookupPath [rootDirName, replicaTag j, s] = some v := by
  induction hs generalizing i fs with
  | nil => exact hv
  | cons h hs ih =>
    rw [dlLoop_cons]
    refine ih (i + 1) _ (by omega) ?_
    refine dlStep_preserve env h i fs _ (fun s' => ?_) hv
    intro hh
    simp only [List.cons.injEq, and_true] at hh
    exact absurd (replicaTag_inj j i hh.2.1) (by omega)

theorem dlLoop_events_const (env : DlEnv) (hs : List String) (i : Nat) (fs fs' : Fs) :
    (dlLoop env hs i fs).2 = (dlLoop env hs i fs').2 := by
  induction hs generalizing i fs fs' with
  | nil => rfl
  | cons h hs ih =>
    rw [dlLoop_cons, dlLoop_cons]
    simp only [List.cons.injEq, true_and]
    exact ih (i + 1) _ _

theorem dlLoop_events_mem (env : DlEnv) (hs : List String) (i i0 : Nat) (h : String) (fs : Fs)
    (hget : hs[i0]? = some h) :
    Event.getData (i + i0) (h ++ "/preprod") [rootDirName, replicaTag (i + i0), "preprod"]
        ∈ (dlLoop env hs i fs).2
    ∧ Event.getData (i + i0) (h ++ "/prod") [rootDirName, replicaTag (i + i0), "prod"]
        ∈ (dlLoop env hs i fs).2 := by
  induction hs generalizing i i0 fs with
  | nil => simp at hget
  | cons h' hs ih =>
    rw [dlLoop_cons]
    cases i0 with
    | zero =>
      simp only [List.getElem?_cons_zero, Option.some.injEq] at hget
      subst hget
      simp
    | succ i0 =>
      simp only [List.getElem?_cons_succ] at hget
      have := ih (i + 1) i0 (dlStepFs env h' i fs) hget
      have harith : i + 1 + i0 = i + (i0 + 1) := by omega
      rw [harith] at this
      exact ⟨List.mem_cons.mpr (Or.inr (List.mem_cons.mpr (Or.inr this.1))),
             List.mem_cons.mpr (Or.inr (List.mem_cons.mpr (Or.inr this.2)))⟩

theorem DlDone_mono (env : DlEnv) (hs : List String) (i : Nat) (fs fs' : Fs)
    (h1 : ∀ j, ((fs.lookupPath [rootDirName, replicaTag j]).isSome = true) →
        ((fs'.lookupPath [rootDirName, replicaTag j]).isSome = true))
    (h2 : ∀ j s (v : FsNode), fs.lookupPath [rootDirName, replicaTag j, s] = some v →
        fs'.lookupPath [rootDirName, replicaTag j, s] = some v)
    (hd : DlDone env hs i fs) : DlDone env hs i fs' := by
  induction hs generalizing i with
  | nil => trivial
  | cons h hs ih =>
    obtain ⟨hdir, hpre, hprod, hrest⟩ := hd
    exact ⟨h1 i hdir, fun hok => h2 i _ _ (hpre hok), fun hok => h2 i _ _ (hprod hok),
           ih (i + 1) hrest⟩

theorem dlLoop_establishes (env : DlEnv) (hs : List String) (i : Nat) (fs : Fs) :
    DlDone env hs i (dlLoop env hs i fs).1 := by
  induction hs generalizing i fs with
  | nil => trivial
  | cons h hs ih =>
    rw [dlLoop_cons]
    refine ⟨?_, ?_, ?_, ih (i + 1) _⟩
    · exact dlLoop_isSome_mono env hs (i + 1) _ _ (dlStep_lookup_dir_isSome env h i fs)
    · intro hok
      exact dlLoop_preserve_lt env hs (i + 1) i _ _ (by omega)
        (dlStep_lookup_preprod env h i fs hok)
    · intro hok
      exact dlLoop_preserve_lt env hs (i + 1) i _ _ (by omega)
        (dlStep_lookup_prod env h i fs hok)

theorem dlStep_noop (env : DlEnv) (h : String) (i : Nat) (fs : Fs)
    (hroot : (fs.lookupPath [rootDirName]).isSome = true)
    (hdir : (fs.lookupPath [rootDirName, replicaTag i]).isSome = true)
    (hpre : env.getDataOk (h ++ "/preprod") = true →
      fs.lookupPath [rootDirName, replicaTag i, "preprod"] = some FsNode.dir)
    (hprod : env.getDataOk (h ++ "/prod") = true →
      fs.lookupPath [rootDirName, replicaTag i, "prod"] = some FsNode.dir) :
    dlStepFs env h i fs = fs := by
  unfold dlStepFs
  have hmk : fs.mkdirs [rootDirName, replicaTag i] = fs := by
    apply mkdirs_noop
    rw [ancestors_two]
    intro q hq
    rcases List.mem_cons.mp hq with h1 | h1
    · subst h1; exact hroot
    · rw [List.mem_singleton.mp h1]; exact hdir
  rw [hmk]
  by_cases h1 : env.getDataOk (h ++ "/preprod") <;> by_cases h2 : env.getDataOk (h ++ "/prod") <;>
    simp [h1, h2]
  · rw [setEntry_self fs _ _ (hpre h1), setEntry_self fs _ _ (hprod h2)]
  · rw [setEntry_self fs _ _ (hpre h1)]
  · rw [setEntry_self fs _ _ (hprod h2)]

theorem dlLoop_noop (env : DlEnv) (hs : List String) (i : Nat) (fs : Fs)
    (hroot : (fs.lookupPath [rootDirName]).isSome = true)
    (hd : DlDone env hs i fs) : (dlLoop env hs i fs).1 = fs := by
  induction hs generalizing i with
  | nil => rfl
  | cons h hs ih =>
    obtain ⟨hdir, hpre, hprod, hrest⟩ := hd
    rw [dlLoop_cons]
    simp only []
    rw [dlStep_noop env h i fs hroot hdir hpre hprod]
    exact ih (i + 1) hrest

end CreateMD

/-! ## Aggregation lemmas -/

namespace CreateMD

theorem aggLoop_nil (env : DlEnv) (fs : Fs) : aggLoop env [] fs = fs := rfl

theorem aggLoop_cons (env : DlEnv) (k : Nat) (ks : List Nat) (fs : Fs) :
    aggLoop env (k :: ks) fs
      = aggLoop env ks
          (aggStep env k "prod" "prod_replicas" (aggStep env k "preprod" "preprod_replicas" fs)) := rfl

theorem aggStep_preserve {v : FsNode} (env : DlEnv) (k : Nat) (sub aggdir : String) (fs : Fs)
    (q : List String) (hv : fs.lookupPath q = some v) :
    (aggStep env k sub aggdir fs).lookupPath q = some v := by
  unfold aggStep
  by_cases hsrc : (fs.lookupPath [rootDirName, replicaTag k, sub]).isSome = true
  · rw [if_pos hsrc]
    by_cases hlk : (fs.lookupPath (aggLinkPath k sub aggdir)).isSome = true
    · rw [if_pos hlk]
      exact hv
    · rw [if_neg hlk]
      have hqlk : q ≠ aggLinkPath k sub aggdir := by
        intro hh
        rw [← hh, hv] at hlk
        exact hlk rfl
      by_cases hok : env.symlinkOk (aggLinkPath k sub aggdir) = true
      · rw [if_pos hok, lookupPath_setEntry_ne _ _ _ _ hqlk]
        exact hv
      · rw [if_neg hok, lookupPath_setEntry_ne _ _ _ _ hqlk]
        exact hv
  · rw [if_neg hsrc]
    exact hv

theorem aggStep_isSome_mono (env : DlEnv) (k : Nat) (sub aggdir : String) (fs : Fs)
    (q : List String) (hv : (fs.lookupPath q).isSome = true) :
    ((aggStep env k sub aggdir fs).lookupPath q).isSome = true := by
  obtain ⟨v, hvv⟩ := Option.isSome_iff_exists.mp hv
  rw [aggStep_preserve env k sub aggdir fs q hvv]
  rfl

theorem aggStep_lookup_other (env : DlEnv) (k : Nat) (sub aggdir : String) (fs : Fs)
    (q : List String) (hq : q ≠ aggLinkPath k sub aggdir) :
    (aggStep env k sub aggdir fs).lookupPath q = fs.lookupPath q := by
  unfold aggStep
  by_cases hsrc : (fs.lookupPath [rootDirName, replicaTag k, sub]).isSome = true
  · rw [if_pos hsrc]
    by_cases hlk : (fs.lookupPath (aggLinkPath k sub aggdir)).isSome = true
    · rw [if_pos hlk]
    · rw [if_neg hlk]
      by_cases hok : env.symlinkOk (aggLinkPath k sub aggdir) = true
      · rw [if_pos hok, lookupPath_setEntry_ne _ _ _ _ hq]
      · rw [if_neg hok, lookupPath_setEntry_ne _ _ _ _ hq]
  · rw [if_neg hsrc]

theorem tag3_ne_aggLinkPath_pre (j k : Nat) (s : String) :
    ([rootDirName, replicaTag j, s] : List String) ≠ aggLinkPath k "preprod" "preprod_replicas" := by
  intro hh
  unfold aggLinkPath at hh
  simp only [List.cons.injEq, and_true] at hh
  exact replicaTag_ne_preag j hh.2.1

theorem tag3_ne_aggLinkPath_prod (j k : Nat) (s : String) :
    ([rootDirName, replicaTag j, s] : List String) ≠ aggLinkPath k "prod" "prod_replicas" := by
  intro hh
  unfold aggLinkPath at hh
  simp only [List.cons.injEq, and_true] at hh
  exact replicaTag_ne_prodag j hh.2.1

theorem aggLoop_lookup_tag3 (env : DlEnv) (ks : List Nat) (fs : Fs) (j : Nat) (s : String) :
    (aggLoop env ks fs).lookupPath [rootDirName, replicaTag j, s]
      = fs.lookupPath [rootDirName, replicaTag j, s] := by
  induction ks generalizing fs with
  | nil => rfl
  | cons k ks ih =>
    rw [aggLoop_cons, ih,
        aggStep_lookup_other env k "prod" "prod_replicas" _ _ (tag3_ne_aggLinkPath_prod j k s),
        aggStep_lookup_other env k "preprod" "preprod_replicas" _ _ (tag3_ne_aggLinkPath_pre j k s)]

theorem aggLoop_lookup_tag2 (env : DlEnv) (ks : List Nat) (fs : Fs) (j : Nat) :
    (aggLoop env ks fs).lookupPath [rootDirName, replicaTag j]
      = fs.lookupPath [rootDirName, replicaTag j] := by
  induction ks generalizing fs with
  | nil => rfl
  | cons k ks ih =>
    rw [aggLoop_cons, ih,
        aggStep_lookup_other env k "prod" "prod_replicas" _ _ (by unfold aggLinkPath; simp),
        aggStep_lookup_other env k "preprod" "preprod_replicas" _ _ (by unfold aggLinkPath; simp)]

theorem aggLoop_preserve {v : FsNode} (env : DlEnv) (ks : List Nat) (fs : Fs)
    (q : List String) (hv : fs.lookupPath q = some v) :
    (aggLoop env ks fs).lookupPath q = some v := by
  induction ks generalizing fs with
  | nil => exact hv
  | cons k ks ih =>
    rw [aggLoop_cons]
    exact ih _ (aggStep_preserve env k _ _ _ q (aggStep_preserve env k _ _ _ q hv))

theorem aggLoop_isSome_mono (env : DlEnv) (ks : List Nat) (fs : Fs)
    (q : List String) (hv : (fs.lookupPath q).isSome = true) :
    ((aggLoop env ks fs).lookupPath q).isSome = true := by
  obtain ⟨v, hvv⟩ := Option.isSome_iff_exists.mp hv
  rw [aggLoop_preserve env ks fs q hvv]
  rfl

theorem aggStep_ensures (env : DlEnv) (k : Nat) (sub aggdir : String) (fs : Fs)
    (hpre : ((aggStep env k sub aggdir fs).lookupPath [rootDirName, replicaTag k, sub]).isSome = true) :
    ((aggStep env k sub aggdir fs).lookupPath (aggLinkPath k sub aggdir)).isSome = true := by
  by_cases hsrc : (fs.lookupPath [rootDirName, replicaTag k, sub]).isSome = true
  · unfold aggStep
    rw [if_pos hsrc]
    by_cases hlk : (fs.lookupPath (aggLinkPath k sub aggdir)).isSome = true
    · rw [if_pos hlk]
      exact hlk
    · rw [if_neg hlk]
      by_cases hok : env.symlinkOk (aggLinkPath k sub aggdir) = true
      · rw [if_pos hok, lookupPath_setEntry_self]
        rfl
      · rw [if_neg hok, lookupPath_setEntry_self]
        rfl
  · exfalso
    apply hsrc
    unfold aggStep at hpre
    rw [if_neg hsrc] at hpre
    exact hpre

theorem aggStep_noop (env : DlEnv) (k : Nat) (sub aggdir : String) (fs : Fs)
    (h : (fs.lookupPath [rootDirName, replicaTag k, sub]).isSome = true →
      (fs.lookupPath (aggLinkPath k sub aggdir)).isSome = true) :
    aggStep env k sub aggdir fs = fs := by
  unfold aggStep
  by_cases hsrc : (fs.lookupPath [rootDirName, replicaTag k, sub]).isSome = true
  · rw [if_pos hsrc, if_pos (h hsrc)]
  · rw [if_neg hsrc]

theorem aggLoop_noop (env : DlEnv) (ks : List Nat) (fs : Fs)
    (hd : AggDone ks fs) : aggLoop env ks fs = fs := by
  induction ks with
  | nil => rfl
  | cons k ks ih =>
    rw [aggLoop_cons]
    have h1 : aggStep env k "preprod" "preprod_replicas" fs = fs :=
      aggStep_noop env k _ _ fs (hd k (by simp)).1
    rw [h1]
    have h2 : aggStep env k "prod" "prod_replicas" fs = fs :=
      aggStep_noop env k _ _ fs (hd k (by simp)).2
    rw [h2]
    exact ih (fun j hj => hd j (by simp [hj]))

theorem aggLoop_establishes (env : DlEnv) (ks : List Nat) (fs : Fs) :
    AggDone ks (aggLoop env ks fs) := by
  induction ks generalizing fs with
  | nil => intro k hk; cases hk
  | cons k ks ih =>
    intro j hj
    rcases List.mem_cons.mp hj with hjk | hjk
    · subst hjk
      rw [aggLoop_cons]
      constructor
      · intro hsrc
        rw [aggLoop_lookup_tag3] at hsrc
        have hsrc2 : ((aggStep env j "preprod" "preprod_replicas" fs).lookupPath
            [rootDirName, replicaTag j, "preprod"]).isSome = true := by
          rwa [aggStep_lookup_other env j "prod" "prod_replicas" _ _
                (tag3_ne_aggLinkPath_prod j j "preprod")] at hsrc
        have hlink := aggStep_ensures env j "preprod" "preprod_replicas" fs hsrc2
        exact aggLoop_isSome_mono env ks _ _
          (aggStep_isSome_mono env j "prod" "prod_replicas" _ _ hlink)
      · intro hsrc
        rw [aggLoop_lookup_tag3] at hsrc
        have hlink := aggStep_ensures env j "prod" "prod_replicas"
          (aggStep env j "preprod" "preprod_replicas" fs) hsrc
        exact aggLoop_isSome_mono env ks _ _ hlink
    · rw [aggLoop_cons]
      exact ih _ j hjk

end CreateMD

/-! ## `downloadData` unfolding and claim C6 -/

namespace CreateMD

theorem downloadData_notfound (N : Nat) (xd : Option (List String)) (env : DlEnv) (fs : Fs)
    (hroot : ¬ (fs.lookupPath [rootDirName]).isSome = true) :
    downloadData N xd env fs = ⟨fs, [], none, some BlockError.workspaceNotFound⟩ := by
  unfold downloadData
  rw [if_neg hroot]

theorem downloadData_remote (N : Nat) (xd : Option (List String)) (env : DlEnv) (fs : Fs)
    (hroot : (fs.lookupPath [rootDirName]).isSome = true) (hl : env.isLocal = false) :
    downloadData N xd env fs
      = ⟨aggLoop env (idxFrom 1 N)
           ((((dlLoop env (xd.getD []) 1 fs).1).mkdirs [rootDirName, "preprod_replicas"]).mkdirs
              [rootDirName, "prod_replicas"]),
         (if (xd.getD []).length ≠ N then [Event.warn dlWarnMsg] else [])
           ++ (dlLoop env (xd.getD []) 1 fs).2,
         some (pathStr [rootDirName, "preprod_replicas"], pathStr [rootDirName, "prod_replicas"]),
         none⟩ := by
  unfold downloadData
  rw [if_pos hroot, hl]
  simp

theorem downloadData_local (N : Nat) (xd : Option (List String)) (env : DlEnv) (fs : Fs)
    (hroot : (fs.lookupPath [rootDirName]).isSome = true) (hl : env.isLocal = true) :
    downloadData N xd env fs
      = ⟨aggLoop env (idxFrom 1 N)
           ((fs.mkdirs [rootDirName, "preprod_replicas"]).mkdirs [rootDirName, "prod_replicas"]),
         [],
         some (pathStr [rootDirName, "preprod_replicas"], pathStr [rootDirName, "prod_replicas"]),
         none⟩ := by
  unfold downloadData
  rw [if_pos hroot, hl]
  simp

/-- Claim C6: in the collection phase with a non-local backend, a recorded
handle count different from the requested replica count produces the
non-fatal warning and the run still completes without error; every recorded
handle is processed — both of its downloads are attempted — regardless of
which pulls or links fail, since the theorem holds for every oracle, and the
only error the phase can raise is the `workspaceNotFound` precondition,
which cannot occur when the workspace root exists. -/
theorem claim_C6 (N : Nat) (xd : Option (List String)) (env : DlEnv) (fs : Fs)
    (hroot : (fs.lookupPath [rootDirName]).isSome = true)
    (hl : env.isLocal = false)
    (hmis : (xd.getD []).length ≠ N) :
    (downloadData N xd env fs).outcome = none
    ∧ Event.warn dlWarnMsg ∈ (downloadData N xd env fs).events
    ∧ ∀ i h, (xd.getD [])[i]? = some h →
        Event.getData (1 + i) (h ++ "/preprod") [rootDirName, replicaTag (1 + i), "preprod"]
          ∈ (downloadData N xd env fs).events
        ∧ Event.getData (1 + i) (h ++ "/prod") [rootDirName, replicaTag (1 + i), "prod"]
          ∈ (downloadData N xd env fs).events := by
  rw [downloadData_remote N xd env fs hroot hl]
  refine ⟨rfl, ?_, ?_⟩
  · show Event.warn dlWarnMsg ∈ _ ++ _
    rw [if_pos hmis]
    simp
  · intro i h hget
    have hm := dlLoop_events_mem env (xd.getD []) 1 i h fs hget
    constructor
    · show _ ∈ _ ++ _
      exact List.mem_append.mpr (Or.inr hm.1)
    · show _ ∈ _ ++ _
      exact List.mem_append.mpr (Or.inr hm.2)

/-- Witness for C6: one recorded handle against two requested replicas, with
every pull and link failing, still completes with the warning and both
download attempts for the recorded handle. -/
theorem claim_C6_witness :
    (downloadData 2 (some ["/remote/work/my_flow/replica_01"]) sampleDlEnvBad
        [([rootDirName], FsNode.dir)]).outcome = none
    ∧ Event.warn dlWarnMsg ∈ (downloadData 2 (some ["/remote/work/my_flow/replica_01"])
        sampleDlEnvBad [([rootDirName], FsNode.dir)]).events
    ∧ ∀ i h, ((some ["/remote/work/my_flow/replica_01"] : Option (List String)).getD [])[i]?
          = some h →
        Event.getData (1 + i) (h ++ "/preprod") [rootDirName, replicaTag (1 + i), "preprod"]
          ∈ (downloadData 2 (some ["/remote/work/my_flow/replica_01"]) sampleDlEnvBad
              [([rootDirName], FsNode.dir)]).events
        ∧ Event.getData (1 + i) (h ++ "/prod") [rootDirName, replicaTag (1 + i), "prod"]
          ∈ (downloadData 2 (some ["/remote/work/my_flow/replica_01"]) sampleDlEnvBad
              [([rootDirName], FsNode.dir)]).events :=
  claim_C6 2 (some ["/remote/work/my_flow/replica_01"]) sampleDlEnvBad
    [([rootDirName], FsNode.dir)] (by decide) (by decide) (by decide)

end CreateMD

/-! ## Claim C5 -/

namespace CreateMD

/-- Claim C5: aggregation links are created only when no entry with the
link's name exists yet — any pre-existing entry at an aggregation-link name
survives `download_data` unchanged — and the collection phase is idempotent:
run a second time on the state the first run produced (same request, same
oracle), it returns exactly the same filesystem, event trace and outputs,
with no error, so no duplicate or renamed links appear. -/
theorem claim_C5 (N : Nat) (xd : Option (List String)) (env : DlEnv) (fs : Fs)
    (hroot : (fs.lookupPath [rootDirName]).isSome = true) :
    (∀ (k : Nat) (v : FsNode),
        fs.lookupPath (aggLinkPath k "preprod" "preprod_replicas") = some v →
        (downloadData N xd env fs).fs.lookupPath (aggLinkPath k "preprod" "preprod_replicas")
          = some v)
    ∧ (∀ (k : Nat) (v : FsNode),
        fs.lookupPath (aggLinkPath k "prod" "prod_replicas") = some v →
        (downloadData N xd env fs).fs.lookupPath (aggLinkPath k "prod" "prod_replicas")
          = some v)
    ∧ downloadData N xd env ((downloadData N xd env fs).fs)
        = ⟨(downloadData N xd env fs).fs, (downloadData N xd env fs).events,
           (downloadData N xd env fs).outputs, none⟩ := by
  cases hl : env.isLocal with
  | false =>
    have hrem := downloadData_remote N xd env fs hroot hl
    have hfs_eq : (downloadData N xd env fs).fs
        = aggLoop env (idxFrom 1 N)
            ((((dlLoop env (xd.getD []) 1 fs).1).mkdirs [rootDirName, "preprod_replicas"]).mkdirs
              [rootDirName, "prod_replicas"]) := congrArg DlResult.fs hrem
    have hev_eq : (downloadData N xd env fs).events
        = (if (xd.getD []).length ≠ N then [Event.warn dlWarnMsg] else [])
            ++ (dlLoop env (xd.getD []) 1 fs).2 := congrArg DlResult.events hrem
    have hout_eq : (downloadData N xd env fs).outputs
        = some (pathStr [rootDirName, "preprod_replicas"],
                pathStr [rootDirName, "prod_replicas"]) := congrArg DlResult.outputs hrem
    have hA_root : (((dlLoop env (xd.getD []) 1 fs).1).lookupPath [rootDirName]).isSome = true :=
      dlLoop_isSome_mono env _ 1 fs _ hroot
    have hB_root : ((((((dlLoop env (xd.getD []) 1 fs).1).mkdirs
          [rootDirName, "preprod_replicas"]).mkdirs
          [rootDirName, "prod_replicas"])).lookupPath [rootDirName]).isSome = true :=
      lookupPath_mkdirs_isSome _ _ _ (lookupPath_mkdirs_isSome _ _ _ hA_root)
    have hC_root : ((downloadData N xd env fs).fs.lookupPath [rootDirName]).isSome = true := by
      rw [hfs_eq]
      exact aggLoop_isSome_mono env _ _ _ hB_root
    have hB_p1 : ((((((dlLoop env (xd.getD []) 1 fs).1).mkdirs
          [rootDirName, "preprod_replicas"]).mkdirs
          [rootDirName, "prod_replicas"])).lookupPath [rootDirName, "preprod_replicas"]).isSome
          = true :=
      lookupPath_mkdirs_isSome _ _ _ (lookupPath_mkdirs_self_isSome _ _ _)
    have hB_p2 : ((((((dlLoop env (xd.getD []) 1 fs).1).mkdirs
          [rootDirName, "preprod_replicas"]).mkdirs
          [rootDirName, "prod_replicas"])).lookupPath [rootDirName, "prod_replicas"]).isSome
          = true :=
      lookupPath_mkdirs_self_isSome _ _ _
    have hC_p1 : ((downloadData N xd env fs).fs.lookupPath
        [rootDirName, "preprod_replicas"]).isSome = true := by
      rw [hfs_eq]
      exact aggLoop_isSome_mono env _ _ _ hB_p1
    have hC_p2 : ((downloadData N xd env fs).fs.lookupPath
        [rootDirName, "prod_replicas"]).isSome = true := by
      rw [hfs_eq]
      exact aggLoop_isSome_mono env _ _ _ hB_p2
    have hDlDoneC : DlDone env (xd.getD []) 1 ((downloadData N xd env fs).fs) := by
      rw [hfs_eq]
      refine DlDone_mono env _ 1 ((dlLoop env (xd.getD []) 1 fs).1) _ ?_ ?_
        (dlLoop_establishes env _ 1 fs)
      · intro j hj
        rw [aggLoop_lookup_tag2]
        exact lookupPath_mkdirs_isSome _ _ _ (lookupPath_mkdirs_isSome _ _ _ hj)
      · intro j s v hv
        rw [aggLoop_lookup_tag3]
        exact lookupPath_mkdirs_preserve _ _ _ (lookupPath_mkdirs_preserve _ _ _ hv)
    have hAggDoneC : AggDone (idxFrom 1 N) ((downloadData N xd env fs).fs) := by
      rw [hfs_eq]
      exact aggLoop_establishes env _ _
    refine ⟨?_, ?_, ?_⟩
    · intro k v hv
      rw [hfs_eq]
      apply aggLoop_preserve
      apply lookupPath_mkdirs_preserve
      apply lookupPath_mkdirs_preserve
      exact dlLoop_preserve env _ 1 fs _
        (fun j s => (tag3_ne_aggLinkPath_pre j k s).symm) hv
    · intro k v hv
      rw [hfs_eq]
      apply aggLoop_preserve
      apply lookupPath_mkdirs_preserve
      apply lookupPath_mkdirs_preserve
      exact dlLoop_preserve env _ 1 fs _
        (fun j s => (tag3_ne_aggLinkPath_prod j k s).symm) hv
    · rw [downloadData_remote N xd env ((downloadData N xd env fs).fs) hC_root hl]
      have hdl_noop : (dlLoop env (xd.getD []) 1 ((downloadData N xd env fs).fs)).1
          = (downloadData N xd env fs).fs :=
        dlLoop_noop env _ 1 _ hC_root hDlDoneC
      rw [hdl_noop]
      have hmk1 : ((downloadData N xd env fs).fs).mkdirs [rootDirName, "preprod_replicas"]
          = (downloadData N xd env fs).fs := by
        apply mkdirs_noop
        rw [ancestors_two]
        intro q hq
        rcases List.mem_cons.mp hq with h1 | h1
        · subst h1; exact hC_root
        · rw [List.mem_singleton.mp h1]; exact hC_p1
      rw [hmk1]
      have hmk2 : ((downloadData N xd env fs).fs).mkdirs [rootDirName, "prod_replicas"]
          = (downloadData N xd env fs).fs := by
        apply mkdirs_noop
        rw [ancestors_two]
        intro q hq
        rcases List.mem_cons.mp hq with h1 | h1
        · subst h1; exact hC_root
        · rw [List.mem_singleton.mp h1]; exact hC_p2
      rw [hmk2]
      rw [aggLoop_noop env _ _ hAggDoneC]
      rw [dlLoop_events_const env (xd.getD []) 1 ((downloadData N xd env fs).fs) fs]
      rw [← hev_eq, ← hout_eq]
  | true =>
    have hloc := downloadData_local N xd env fs hroot hl
    have hfs_eq : (downloadData N xd env fs).fs
        = aggLoop env (idxFrom 1 N)
            ((fs.mkdirs [rootDirName, "preprod_replicas"]).mkdirs [rootDirName, "prod_replicas"])
          := congrArg DlResult.fs hloc
    have hev_eq : (downloadData N xd env fs).events = [] := congrArg DlResult.events hloc
    have hout_eq : (downloadData N xd env fs).outputs
        = some (pathStr [rootDirName, "preprod_replicas"],
                pathStr [rootDirName, "prod_replicas"]) := congrArg DlResult.outputs hloc
    have hB_root : (((fs.mkdirs [rootDirName, "preprod_replicas"]).mkdirs
          [rootDirName, "prod_replicas"]).lookupPath [rootDirName]).isSome = true :=
      lookupPath_mkdirs_isSome _ _ _ (lookupPath_mkdirs_isSome _ _ _ hroot)
    have hC_root : ((downloadData N xd env fs).fs.lookupPath [rootDirName]).isSome = true := by
      rw [hfs_eq]
      exact aggLoop_isSome_mono env _ _ _ hB_root
    have hC_p1 : ((downloadData N xd env fs).fs.lookupPath
        [rootDirName, "preprod_replicas"]).isSome = true := by
      rw [hfs_eq]
      exact aggLoop_isSome_mono env _ _ _
        (lookupPath_mkdirs_isSome _ _ _ (lookupPath_mkdirs_self_isSome _ _ _))
    have hC_p2 : ((downloadData N xd env fs).fs.lookupPath
        [rootDirName, "prod_replicas"]).isSome = true := by
      rw [hfs_eq]
      exact aggLoop_isSome_mono env _ _ _ (lookupPath_mkdirs_self_isSome _ _ _)
    have hAggDoneC : AggDone (idxFrom 1 N) ((downloadData N xd env fs).fs) := by
      rw [hfs_eq]
      exact aggLoop_establishes env _ _
    refine ⟨?_, ?_, ?_⟩
    · intro k v hv
      rw [hfs_eq]
      apply aggLoop_preserve
      apply lookupPath_mkdirs_preserve
      apply lookupPath_mkdirs_preserve
      exact hv
    · intro k v hv
      rw [hfs_eq]
      apply aggLoop_preserve
      apply lookupPath_mkdirs_preserve
      apply lookupPath_mkdirs_preserve
      exact hv
    · rw [downloadData_local N xd env ((downloadData N xd env fs).fs) hC_root hl]
      have hmk1 : ((downloadData N xd env fs).fs).mkdirs [rootDirName, "preprod_replicas"]
          = (downloadData N xd env fs).fs := by
        apply mkdirs_noop
        rw [ancestors_two]
        intro q hq
        rcases List.mem_cons.mp hq with h1 | h1
        · subst h1; exact hC_root
        · rw [List.mem_singleton.mp h1]; exact hC_p1
      rw [hmk1]
      have hmk2 : ((downloadData N xd env fs).fs).mkdirs [rootDirName, "prod_replicas"]
          = (downloadData N xd env fs).fs := by
        apply mkdirs_noop
        rw [ancestors_two]
        intro q hq
        rcases List.mem_cons.mp hq with h1 | h1
        · subst h1; exact hC_root
        · rw [List.mem_singleton.mp h1]; exact hC_p2
      rw [hmk2]
      rw [aggLoop_noop env _ _ hAggDoneC]
      rw [← hev_eq, ← hout_eq]

/-- Witness for C5: collecting the output of a successful two-replica remote
batch twice, starting from a workspace holding a pre-existing link entry. -/
theorem claim_C5_witness :
    (∀ (k : Nat) (v : FsNode),
        Fs.lookupPath [([rootDirName], FsNode.dir),
            (aggLinkPath 7 "preprod" "preprod_replicas", FsNode.file "keep")]
          (aggLinkPath k "preprod" "preprod_replicas") = some v →
        (downloadData 2 (some ["/r/w1", "/r/w2"]) sampleDlEnv
            [([rootDirName], FsNode.dir),
             (aggLinkPath 7 "preprod" "preprod_replicas", FsNode.file "keep")]).fs.lookupPath
          (aggLinkPath k "preprod" "preprod_replicas") = some v)
    ∧ (∀ (k : Nat) (v : FsNode),
        Fs.lookupPath [([rootDirName], FsNode.dir),
            (aggLinkPath 7 "preprod" "preprod_replicas", FsNode.file "keep")]
          (aggLinkPath k "prod" "prod_replicas") = some v →
        (downloadData 2 (some ["/r/w1", "/r/w2"]) sampleDlEnv
            [([rootDirName], FsNode.dir),
             (aggLinkPath 7 "preprod" "preprod_replicas", FsNode.file "keep")]).fs.lookupPath
          (aggLinkPath k "prod" "prod_replicas") = some v)
    ∧ downloadData 2 (some ["/r/w1", "/r/w2"]) sampleDlEnv
        ((downloadData 2 (some ["/r/w1", "/r/w2"]) sampleDlEnv
            [([rootDirName], FsNode.dir),
             (aggLinkPath 7 "preprod" "preprod_replicas", FsNode.file "keep")]).fs)
        = ⟨(downloadData 2 (some ["/r/w1", "/r/w2"]) sampleDlEnv
              [([rootDirName], FsNode.dir),
               (aggLinkPath 7 "preprod" "preprod_replicas", FsNode.file "keep")]).fs,
           (downloadData 2 (some ["/r/w1", "/r/w2"]) sampleDlEnv
              [([rootDirName], FsNode.dir),
               (aggLinkPath 7 "preprod" "preprod_replicas", FsNode.file "keep")]).events,
           (downloadData 2 (some ["/r/w1", "/r/w2"]) sampleDlEnv
              [([rootDirName], FsNode.dir),
               (aggLinkPath 7 "preprod" "preprod_replicas", FsNode.file "keep")]).outputs,
           none⟩ :=
  claim_C5 2 (some ["/r/w1", "/r/w2"]) sampleDlEnv
    [([rootDirName], FsNode.dir),
     (aggLinkPath 7 "preprod" "preprod_replicas", FsNode.file "keep")] (by decide)

end CreateMD

/-! ## Claim C10 -/

namespace MMPBSA

theorem mmpbsa_runScript_skip (req : Request) (env : Env) (fs : Fs)
    (hsetup : env.setupExit = 0)
    (hnoscript : env.madeScript = false)
    (hfs : fs.lookupPath (req.pluginDir ++ ["script_mmpbsa.sh"]) = none) :
    runScript req env fs
      = ⟨(if env.madeInput then
            fs.addIfAbsent (req.pluginDir ++ ["mmpbsa.in"]) (FsNode.file "")
          else fs),
         [Event.invokeSetup (cmdArgs req)],
         some (pathStr (req.pluginDir ++ ["mmpbsa.in"]),
               pathStr (req.pluginDir ++ ["script_mmpbsa.sh"])),
         none⟩ := by
  unfold runScript
  rw [if_pos hsetup, hnoscript]
  simp only [Bool.false_eq_true, if_false]
  have hne : req.pluginDir ++ ["script_mmpbsa.sh"] ≠ req.pluginDir ++ ["mmpbsa.in"] := by
    intro hh
    have := List.append_cancel_left hh
    simp at this
  have h1 : (if env.madeInput then
        fs.addIfAbsent (req.pluginDir ++ ["mmpbsa.in"]) (FsNode.file "")
      else fs).lookupPath (req.pluginDir ++ ["script_mmpbsa.sh"]) = none := by
    by_cases hmi : env.madeInput = true
    · simp only [hmi, if_true]
      rw [lookupPath_addIfAbsent_ne _ _ _ _ hne]
      exact hfs
    · simp only [hmi, Bool.false_eq_true, if_false]
      exact hfs
  rw [h1]
  simp

/-- Claim C10: in the MM-PBSA block, when immediate execution is requested
but the generated `script_mmpbsa.sh` does not exist after a successful
setup, the execution step is silently skipped — no second subprocess is
invoked and no error is raised — and the block still sets its two outputs
to the `mmpbsa.in` and `script_mmpbsa.sh` paths under the working directory
regardless of whether those files exist (`env.madeInput` is arbitrary). -/
theorem claim_C10 (req : Request) (env : Env) (fs : Fs)
    (hsetup : env.setupExit = 0)
    (hrun : req.runNow = true)
    (hnoscript : env.madeScript = false)
    (hfs : fs.lookupPath (req.pluginDir ++ ["script_mmpbsa.sh"]) = none) :
    (runScript req env fs).outcome = none
    ∧ (runScript req env fs).events = [Event.invokeSetup (cmdArgs req)]
    ∧ (runScript req env fs).outputs
        = some (pathStr (req.pluginDir ++ ["mmpbsa.in"]),
                pathStr (req.pluginDir ++ ["script_mmpbsa.sh"])) := by
  have hcan := mmpbsa_runScript_skip req env fs hsetup hnoscript hfs
  exact ⟨congrArg Result.outcome hcan, congrArg Result.events hcan,
         congrArg Result.outputs hcan⟩

/-- Witness for C10: the sample MM-PBSA request with `run_now` set, whose
setup produces `mmpbsa.in` but not `script_mmpbsa.sh`. -/
theorem claim_C10_witness :
    (runScript sampleMReq sampleMEnv []).outcome = none
    ∧ (runScript sampleMReq sampleMEnv []).events = [Event.invokeSetup (cmdArgs sampleMReq)]
    ∧ (runScript sampleMReq sampleMEnv []).outputs
        = some (pathStr (sampleMReq.pluginDir ++ ["mmpbsa.in"]),
                pathStr (sampleMReq.pluginDir ++ ["script_mmpbsa.sh"])) :=
  claim_C10 sampleMReq sampleMEnv [] rfl rfl rfl rfl

end MMPBSA
